import Mathlib

/-!
# Verification of the Cod compiler middle end (semantic analyzer + optimizer)

Shallow embedding of the Cod repository's program representation (`src/core.js`),
its optimizer (`src/unnamed/part_002`, with the relevant differences of the
`part_003` draft noted where a claim cites it) and a fragment of its semantic
analyzer (`src/analyzer.js`).

JavaScript is untyped, so the program representation is one inductive type
`Node` covering every node built by `core.js`, together with the bare JS
values that appear in node positions: numbers (modelled by `ℚ`; the only
arithmetic the optimizer could perform on them is in the constant-folding
branch, which is unreachable, so float-specific behaviour never matters),
strings, booleans, and bare JS arrays (`rawList`), which the optimizer's
statement handlers return to mean "splice these statements here".

Field accesses on `undefined`/`null` throw a `TypeError` in JS; the embedding
returns `Except.error` with the corresponding message in exactly the places
the source would throw.
-/

/-- AST/value model: one constructor per node kind constructed in
`src/core.js`, plus bare JS numbers, strings, booleans and arrays.
Optional fields model JS fields that the repository sometimes leaves
`undefined`/`null` (e.g. `core.shortReturnStatement()` builds
`{ kind: "returnStatement" }` with no `expression` field, and
`VarDecl_type_public` passes `null` as the initializer). -/
inductive Node where
  | num (v : ℚ)
  | str (s : String)
  | boolL (b : Bool)
  | rawList (elems : List Node)
  | program (statements : List Node)
  | functionDeclaration (name : String) (fn : Node) (params : List Node)
      (body : Option (List Node))
  | functionE (name : String) (ty : Node)
  | functionTypeN (paramTypes : Option (List Node)) (returnType : Node)
  | typeDeclaration (ty : Node)
  | arrayTypeN (baseType : Node)
  | arrayExpression (elements : List Node)
  | emptyArrayN (ty : Node)
  | voidTy
  | numberTy
  | stringTy
  | boolTy
  | structTypeN (name : String) (fields : List Node)
  | fieldN (name : String) (ty : Node)
  | variableDeclaration (variableF : Node) (initializer : Option Node)
  | variableN (name : String) (readOnly : Bool) (ty : Node)
  | ifStatement (test : Node) (consequent : List Node) (alternate : Option (List Node))
  | forRangeStatement (iterator : Node) (low : Node) (op : String) (high : Node)
      (body : List Node)
  | forStatement (iterator : Node) (collection : Node) (body : List Node)
  | whileStatement (test : Node) (body : List Node)
  | returnStatement (expression : Option Node)
  | incrementStatement (operand : Node)
  | decrementStatement (operand : Node)
  | breakStatementN
  | printStatement (args : Node)
  | binaryE (op : String) (left : Node) (right : Node) (ty : Node)
  | unaryE (op : String) (operand : Node) (ty : Option Node)
  | functionCallN (callee : Node) (args : List Node) (ty : Node)
  | tryCatchStatement (tryBlock : List Node) (catchBlock : Option (List Node))
deriving Repr

/-- The `kind` tag `src/core.js` stores on each node (bare JS values have no
`kind` property, modelled by `none`). The optimizer dispatches on this string:
`optimizers?.[node.kind]?.(node) ?? node`. -/
def Node.kindString : Node → Option String
  | .num _ => none
  | .str _ => none
  | .boolL _ => none
  | .rawList _ => none
  | .program _ => some "Program"
  | .functionDeclaration _ _ _ _ => some "functionDeclaration"
  | .functionE _ _ => some "Function"
  | .functionTypeN _ _ => some "functionType"
  | .typeDeclaration _ => some "typeDeclaration"
  | .arrayTypeN _ => some "ArrayType"
  | .arrayExpression _ => some "arrayExpression"
  | .emptyArrayN _ => some "emptyArray"
  | .voidTy => some "VoidType"
  | .numberTy => some "NumberType"
  | .stringTy => some "StringType"
  | .boolTy => some "BoolType"
  | .structTypeN _ _ => some "structType"
  | .fieldN _ _ => some "Field"
  | .variableDeclaration _ _ => some "variableDeclaration"
  | .variableN _ _ _ => some "Variable"
  | .ifStatement _ _ _ => some "ifStatement"
  | .forRangeStatement _ _ _ _ _ => some "forRangeStatement"
  | .forStatement _ _ _ => some "forStatement"
  | .whileStatement _ _ => some "whileStatement"
  | .returnStatement _ => some "returnStatement"
  | .incrementStatement _ => some "incrementStatement"
  | .decrementStatement _ => some "decrementStatement"
  | .breakStatementN => some "BreakStatement"
  | .printStatement _ => some "printStatement"
  | .binaryE _ _ _ _ => some "BinaryExpression"
  | .unaryE _ _ _ => some "UnaryExpression"
  | .functionCallN _ _ _ => some "FunctionCall"
  | .tryCatchStatement _ _ => some "tryCatchStatement"

/-!
## Optimizer (`src/unnamed/part_002`)

`optimize(node)` is `optimizers?.[node.kind]?.(node) ?? node`. The handler
table's keys are the property names written in the object literal:
`program`, `functionDeclaration`, `arrayExpression`, `variableDeclaration`,
`ifStatement`, `shortIfStatement`, `whileStatement`, `forRangeStatement`,
`forStatement`, `returnStatement`, `incrementStatement`, `decrementStatement`,
`breakStatement`, `binaryExpression`, `unaryExpression`, `functionCall`.

Matching a key against the `kind` strings above, only these handlers are ever
invoked: `functionDeclaration`, `arrayExpression`, `variableDeclaration`,
`ifStatement`, `whileStatement`, `forRangeStatement`, `forStatement`,
`returnStatement`, `incrementStatement`, `decrementStatement`. In particular:

* `program` ≠ `"Program"`, `binaryExpression` ≠ `"BinaryExpression"`,
  `unaryExpression` ≠ `"UnaryExpression"`, `functionCall` ≠ `"FunctionCall"`,
  `breakStatement` ≠ `"BreakStatement"`: those nodes fall through the `??` and
  are returned unchanged;
* no kind is `"shortIfStatement"` (`core.shortIfStatement` uses kind
  `"ifStatement"`), so that handler is dead code.

Handlers use `.flatMap(optimize)` on statement lists, splicing a returned
bare array (`rawList`) and keeping any other result; `arrayExpression` uses
`.map(optimize)` (no splicing). `optimize(undefined)` and `optimize(null)`
throw (`node.kind` dereferences undefined/null), and `s.alternate.flatMap`
throws when the field is absent; those are `Except.error`.
-/

/-- The JS test `x.constructor === Boolean` together with the boolean's
value: `some b` iff the value is the bare boolean `b`. -/
def Node.boolValue : Node → Option Bool
  | .boolL b => some b
  | _ => none

/-- The JS test `x.constructor === Number` together with the numeric value:
`some v` iff the value is the bare number `v`. (The sources also accept
`BigInt` here; no part of the repository ever constructs a BigInt.) -/
def Node.numValue : Node → Option ℚ
  | .num v => some v
  | _ => none

/-- Exception-propagating sequencing: run `x`; a thrown error aborts the
whole call, otherwise continue with the result (JS control flow of a
statement sequence whose calls may throw). -/
def exBind {E A B : Type} (x : Except E A) (f : A → Except E B) : Except E B :=
  match x with
  | .error e => .error e
  | .ok a => f a

/-- The tail of the `ifStatement` handler after all children are rewritten:
`if (s.test.constructor === Boolean) return s.test ? s.consequent :
s.alternate; return s`. -/
def ifFinish (t : Node) (c a2 : List Node) : Except String Node :=
  match t.boolValue with
  | some b => .ok (.rawList (if b then c else a2))
  | none => .ok (.ifStatement t c (some a2))

/-- The tail of the `forRangeStatement` handler after all children are
rewritten: if low and high are both bare numbers and low > high, return the
empty list, else return the node. -/
def forRangeFinish (iter2 lo2 : Node) (op : String) (hi2 : Node) (b : List Node) :
    Except String Node :=
  match lo2.numValue, hi2.numValue with
  | some a, some c =>
    if c < a then .ok (.rawList [])
    else .ok (.forRangeStatement iter2 lo2 op hi2 b)
  | _, _ => .ok (.forRangeStatement iter2 lo2 op hi2 b)

/-- One step of `.flatMap`: a bare-array result is spliced, any other result
is kept as a single element. -/
def spliceInto (r : Node) (rs : List Node) : List Node :=
  match r with
  | .rawList l => l ++ rs
  | m => m :: rs

mutual

/-- `optimize` from `src/unnamed/part_002` lines 3-135 (dispatch as analyzed in
the section comment: constructors whose kind matches no handler key are
returned unchanged by the final catch-all). -/
def optimize : Node → Except String Node
  | .functionDeclaration name fn params none =>
    exBind (optimize fn) fun fn2 =>
      .ok (.functionDeclaration name fn2 params none)
  | .functionDeclaration name fn params (some b) =>
    exBind (optimize fn) fun fn2 =>
      exBind (optimizeStmts b) fun b2 =>
        .ok (.functionDeclaration name fn2 params (some b2))
  | .arrayExpression elems =>
    exBind (optimizeEach elems) fun es => .ok (.arrayExpression es)
  | .variableDeclaration v none =>
    -- d.initializer = optimize(d.initializer) with initializer null:
    -- optimize(null) dereferences null.kind
    exBind (optimize v) fun _ =>
      .error "TypeError: Cannot read properties of null (reading 'kind')"
  | .variableDeclaration v (some i) =>
    exBind (optimize v) fun v2 =>
      exBind (optimize i) fun i2 =>
        .ok (.variableDeclaration v2 (some i2))
  | .ifStatement test cons none =>
    -- s.alternate.flatMap with the alternate field absent
    exBind (optimize test) fun _ =>
      exBind (optimizeStmts cons) fun _ =>
        .error "TypeError: Cannot read properties of undefined (reading 'flatMap')"
  | .ifStatement test cons (some a) =>
    exBind (optimize test) fun t =>
      exBind (optimizeStmts cons) fun c =>
        exBind (optimizeStmts a) fun a2 =>
          ifFinish t c a2
  | .whileStatement test body =>
    exBind (optimize test) fun t =>
      -- if (s.test === false) return []
      if t.boolValue == some false then .ok (.rawList [])
      else
        exBind (optimizeStmts body) fun b =>
          .ok (.whileStatement t b)
  | .forRangeStatement iter lo op hi body =>
    exBind (optimize iter) fun iter2 =>
      exBind (optimize lo) fun lo2 =>
        -- s.op = optimize(s.op): op is a plain string, strings have no kind,
        -- so this is the identity
        exBind (optimize hi) fun hi2 =>
          exBind (optimizeStmts body) fun b =>
            forRangeFinish iter2 lo2 op hi2 b
  | .forStatement iter coll body =>
    exBind (optimize iter) fun iter2 =>
      exBind (optimize coll) fun coll2 =>
        exBind (optimizeStmts body) fun b =>
          .ok (.forStatement iter2 coll2 b)
  | .returnStatement none =>
    -- s.expression = optimize(s.expression) with the field absent:
    -- optimize(undefined) dereferences undefined.kind
    .error "TypeError: Cannot read properties of undefined (reading 'kind')"
  | .returnStatement (some e) =>
    exBind (optimize e) fun e2 => .ok (.returnStatement (some e2))
  | .incrementStatement operand =>
    exBind (optimize operand) fun o => .ok (.incrementStatement o)
  | .decrementStatement operand =>
    exBind (optimize operand) fun o => .ok (.decrementStatement o)
  | n => .ok n

/-- `list.flatMap(optimize)`: left to right, splicing array results. An
exception aborts the whole traversal. -/
def optimizeStmts : List Node → Except String (List Node)
  | [] => .ok []
  | s :: rest =>
    exBind (optimize s) fun r =>
      exBind (optimizeStmts rest) fun rs =>
        .ok (spliceInto r rs)

/-- `list.map(optimize)` (used by the `arrayExpression` handler; no
splicing). -/
def optimizeEach : List Node → Except String (List Node)
  | [] => .ok []
  | s :: rest =>
    exBind (optimize s) fun r =>
      exBind (optimizeEach rest) fun rs =>
        .ok (r :: rs)

end

/-- JS `**` on the numbers this code base manipulates: exact for integer
exponents (the only exponents the repository's sources and tests use).
This function is only called from `binaryExpressionHandler`, which is
unreachable from `optimize` (kind/key mismatch), so its value never
influences an optimizer result. -/
def jsPow (a b : ℚ) : ℚ :=
  if b.den = 1 then a ^ b.num else 0

/-- The handler written at `src/unnamed/part_002` lines 87-125 under the key
`binaryExpression`. `core.binary` tags its nodes `kind: "BinaryExpression"`,
which matches no key of the handler table, so `optimize` NEVER invokes this
function; it is embedded to show what the dispatch fails to reach.
(`e.op = optimize(e.op)` is the identity on the operator string; `==`/`!=`
fold with `===`/`!==`, which on two numbers is numeric equality.) -/
def binaryExpressionHandler : Node → Except String Node
  | .binaryE op left right ty =>
    match optimize left with
    | .error e => .error e
    | .ok l =>
      match optimize right with
      | .error e => .error e
      | .ok r =>
        if op = "&&" then
          match l, r with
          | .boolL true, r2 => .ok r2
          | l2, .boolL true => .ok l2
          | l2, r2 => .ok (.binaryE op l2 r2 ty)
        else if op = "||" then
          match l, r with
          | .boolL false, r2 => .ok r2
          | l2, .boolL false => .ok l2
          | l2, r2 => .ok (.binaryE op l2 r2 ty)
        else
          match l, r with
          | .num a, .num b =>
            if op = "+" then .ok (.num (a + b))
            else if op = "-" then .ok (.num (a - b))
            else if op = "*" then .ok (.num (a * b))
            else if op = "/" then .ok (.num (a / b))
            else if op = "**" then .ok (.num (jsPow a b))
            else if op = "<" then .ok (.boolL (a < b))
            else if op = "<=" then .ok (.boolL (a ≤ b))
            else if op = "==" then .ok (.boolL (a = b))
            else if op = "!=" then .ok (.boolL (a ≠ b))
            else if op = ">=" then .ok (.boolL (b ≤ a))
            else if op = ">" then .ok (.boolL (b < a))
            else .ok (.binaryE op (.num a) (.num b) ty)
          | .num a, r2 =>
            if a = 0 ∧ op = "+" then .ok r2
            else if a = 1 ∧ op = "*" then .ok r2
            else if a = 0 ∧ op = "-" then .ok (.unaryE "-" r2 none)
            else if a = 1 ∧ op = "**" then .ok (.num 1)
            else if a = 0 ∧ (op = "*" ∨ op = "/") then .ok (.num 0)
            else .ok (.binaryE op (.num a) r2 ty)
          | l2, .num b =>
            if (op = "+" ∨ op = "-") ∧ b = 0 then .ok l2
            else if (op = "*" ∨ op = "/") ∧ b = 1 then .ok l2
            else if op = "*" ∧ b = 0 then .ok (.num 0)
            else if op = "**" ∧ b = 0 then .ok (.num 1)
            else .ok (.binaryE op l2 (.num b) ty)
          | l2, r2 => .ok (.binaryE op l2 r2 ty)
  | n => .ok n

/-!
## Semantic analyzer (`src/analyzer.js`, first document in the file)

Embedded fragment: the surface constructs the verified properties exercise
(variable, function and struct declarations, the three `IfStmt` forms,
`WhileStmt`, `break`, the two `ReturnStmt` forms, `PrintStmt`, and the
expression/type rules they need). Each handler is translated line by line
from its `rep` operation; the ambient mutable `context` variable is threaded
explicitly. Ohm's line/column prefix on error messages is dropped: errors are
identified by their message text and by whether they are a `SemanticError`
(`throw new Error(...)` from `must`) or an engine `TypeError` (`crash`).
-/

/-- Analyzer outcome: `semantic` is an error raised by `must`;
`crash` is a JS `TypeError` the analyzer itself throws (e.g. calling the
non-existent `core.nestedIfStatement`). -/
inductive AErr where
  | semantic (msg : String)
  | crash (msg : String)
deriving Repr, DecidableEq

/-- One `Context` object: its own `locals` map, loop flag and enclosing
function. The parent chain is the tail of the `Ctx` list. -/
structure Frame where
  locals : List (String × Node)
  inLoop : Bool
  function : Option Node
deriving Repr

/-- The chain of `Context` objects, innermost first (`parent` = tail). -/
abbrev Ctx := List Frame

/-- `Map.get` on a frame's locals (insertion order, first match). -/
def lookupIn : List (String × Node) → String → Option Node
  | [], _ => none
  | (k, v) :: rest, n => if k = n then some v else lookupIn rest n

/-- `Map.set`: replace in place if the key is present, else append. -/
def setLocal : List (String × Node) → String → Node → List (String × Node)
  | [], n, v => [(n, v)]
  | (k, w) :: rest, n, v =>
    if k = n then (n, v) :: rest else (k, w) :: setLocal rest n v

/-- `Context.lookup` (analyzer.js 29-31):
`this.locals.get(name) || this.parent?.lookup(name)`
(entities are objects, hence truthy). -/
def Ctx.lookup : Ctx → String → Option Node
  | [], _ => none
  | f :: rest, n =>
    match lookupIn f.locals n with
    | some e => some e
    | none => Ctx.lookup rest n

/-- `Context.add` (analyzer.js 26-28): insert into the current frame only. -/
def Ctx.add : Ctx → String → Node → Ctx
  | [], _, _ => []
  | f :: rest, n, v => { f with locals := setLocal f.locals n v } :: rest

/-- `this.inLoop` of the current context (`[]` cannot occur: the root frame
always exists). -/
def Ctx.inLoopC : Ctx → Bool
  | [] => false
  | f :: _ => f.inLoop

/-- `this.function` of the current context. -/
def Ctx.functionC : Ctx → Option Node
  | [] => none
  | f :: _ => f.function

/-- `newChildContext(props)` (analyzer.js 35-37): fresh empty locals, parent
is the current context, `inLoop`/`function` are spread from the current
context unless overridden by `props`. Callers pass the effective values. -/
def Ctx.child (ctx : Ctx) (inLoop : Bool) (function : Option Node) : Ctx :=
  Frame.mk [] inLoop function :: ctx

/-- `Context.root()`: `core.standardLibrary` is the empty object. -/
def rootCtx : Ctx := [Frame.mk [] false none]

/-- The JS `.type` property read by the `must...` type checks.
`core.js` lines 143-146 put a `type` on the `Number`, `String` and `Boolean`
prototypes, so bare literals have one; nodes carry the `type` their
constructor stored; on all other values the property is `undefined` (`none`).
(`arrayExpression` nodes get a `type` assigned after construction in
`Primary_array`; array literals are outside the embedded fragment.) -/
def Node.typeField : Node → Option Node
  | .num _ => some .numberTy
  | .str _ => some .stringTy
  | .boolL _ => some .boolTy
  | .variableN _ _ t => some t
  | .functionE _ t => some t
  | .fieldN _ t => some t
  | .emptyArrayN t => some t
  | .binaryE _ _ _ t => some t
  | .unaryE _ _ t => t
  | .functionCallN _ _ t => some t
  | _ => none

/-- JS `===` between two type values, as used on types by the analyzer.
The interned base-type singletons are identical exactly when they are the
same constant; two struct type objects are identical exactly when they are
the same declaration, and within one scope chain distinct declarations have
distinct names (the unique-declaration check runs before a struct is added),
so reference equality is modelled by name equality; `ArrayType` and
`functionType` objects are created fresh at each occurrence, so two of them
compared here are never the same object (`equivalent` handles arrays
structurally in its second disjunct, below). -/
def tyIdentical : Node → Node → Bool
  | .voidTy, .voidTy => true
  | .numberTy, .numberTy => true
  | .stringTy, .stringTy => true
  | .boolTy, .boolTy => true
  | .structTypeN n _, .structTypeN m _ => n == m
  | _, _ => false

/-- `equivalent` (analyzer.js 136-149): `t1 === t2`, or both are array types
with equivalent bases (the commented-out function-type clause is dead).
When `t1 === t2` holds for two array objects they are the same object and
the structural clause also succeeds, so the identity disjunct is subsumed. -/
def equivalent : Node → Node → Bool
  | .arrayTypeN a, .arrayTypeN b => equivalent a b
  | t1, t2 => tyIdentical t1 t2

/-- `assignable` (analyzer.js 151-162): `toType == ANY || equivalent(...)`.
`ANY` is `core.anyType`, which does not exist, i.e. `undefined`; the loose
comparison `toType == undefined` is false for every actual type value, so
assignability reduces to equivalence. -/
def assignable (fromType toType : Node) : Bool :=
  equivalent fromType toType

/-- `typeDescription` (analyzer.js 164-184): the `switch` has cases only for
number/string/boolean/array; on every other kind it returns `undefined`,
which the template literal renders as the string `undefined`. -/
def typeDescription : Node → String
  | .numberTy => "number"
  | .stringTy => "string"
  | .boolTy => "boolean"
  | .arrayTypeN b => "[" ++ typeDescription b ++ "]"
  | _ => "undefined"

/-- `mustHaveBooleanType` (analyzer.js 84-86): `e.type === BOOLEAN`. -/
def mustHaveBooleanType (e : Node) : Except AErr Unit :=
  match e.typeField with
  | some .boolTy => .ok ()
  | _ => .error (.semantic "Expected a boolean")

/-- `mustBeAssignable` (analyzer.js 186-191): the message string is built
first, so `typeDescription(e.type)` dereferences `e.type.kind` before the
check runs; when `e.type` is `undefined` this throws a `TypeError`. -/
def mustBeAssignable (e : Node) (toType : Node) : Except AErr Unit :=
  match e.typeField with
  | none => .error (.crash "TypeError: Cannot read properties of undefined (reading 'kind')")
  | some t =>
    if assignable t toType then .ok ()
    else .error (.semantic
      s!"Cannot assign a {typeDescription t} to a {typeDescription toType}")

/-- `mustNotAlreadyBeDeclared` (analyzer.js 68-70):
`must(!context.lookup(name), ...)` — note it consults `lookup`, which walks
the whole parent chain, not just the current frame. -/
def mustNotAlreadyBeDeclaredCheck (ctx : Ctx) (name : String) : Except AErr Unit :=
  if (Ctx.lookup ctx name).isSome then
    .error (.semantic s!"Identifier {name} already declared")
  else .ok ()

/-- `mustBeAType` (analyzer.js 114-117): `e?.kind.endsWith("Type")`. -/
def kindEndsInType (n : Node) : Bool :=
  match n.kindString with
  | some k => k.endsWith "Type"
  | none => false

/-- `includesAsField` (analyzer.js 123-129) as invoked by `StructDecl`:
`structType.fields.some((field) => field.type === type)` — the recursive
clause through nested struct fields is commented out in the source, so the
check is shallow. `===` between type objects is `tyIdentical`. -/
def includesAsField (fields : List Node) (ty : Node) : Bool :=
  fields.any (fun f =>
    match f with
    | .fieldN _ ft => tyIdentical ft ty
    | _ => false)

/-- `mustHaveDistinctFields` (analyzer.js 197-200):
`new Set(names).size === fields.length`. -/
def distinctFieldNames (fields : List Node) : Bool :=
  let names := fields.map (fun f => match f with | .fieldN n _ => n | _ => "")
  names.dedup.length == names.length

/-- The surface type syntax (`Type` rule of `cod.ohm`) for the fragment. -/
inductive TypeE where
  | arrayT (base : TypeE)
  | voidT
  | numberT
  | stringT
  | booleanT
  | idT (name : String)
deriving Repr, DecidableEq

/-- Surface expressions of the fragment: literals and identifiers. -/
inductive Exp where
  | litNum (v : ℚ)
  | hooked
  | unhooked
  | litStr (s : String)
  | idE (name : String)
deriving Repr

/-- Surface statements of the fragment, mirroring the grammar rules the
embedded handlers implement. `varDecl`'s `priv` is the `lake` (private)
qualifier, which the analyzer translates to `readOnly`. `funcDecl` is the
public form `FuncDecl_function_public`. `nestedIf` is
`IfStmt_nested_if`, whose alternate is a trailing `IfStmt`. -/
inductive Stmt where
  | varDecl (priv : Bool) (ty : TypeE) (name : String) (init : Exp)
  | funcDecl (retTy : TypeE) (name : String) (params : List (TypeE × String))
      (body : List Stmt)
  | structDecl (name : String) (fields : List (TypeE × String))
  | ifElse (test : Exp) (cons : List Stmt) (alt : List Stmt)
  | nestedIf (test : Exp) (cons : List Stmt) (alt : Stmt)
  | shortIf (test : Exp) (cons : List Stmt)
  | whileS (test : Exp) (body : List Stmt)
  | breakS
  | returnLong (e : Exp)
  | returnShort
  | printS (e : Exp)
deriving Repr

/-- `Type` rule handlers (`Type_array`, `Type_void`, `number`, `string`,
`boolean`, `Type_id`). `Type_id` looks the name up, requires it found
(`mustHaveBeenFound`) and requires `mustBeAType`. -/
def analyzeType : Ctx → TypeE → Except AErr Node
  | ctx, .arrayT b =>
    match analyzeType ctx b with
    | .error e => .error e
    | .ok t => .ok (.arrayTypeN t)
  | _, .voidT => .ok .voidTy
  | _, .numberT => .ok .numberTy
  | _, .stringT => .ok .stringTy
  | _, .booleanT => .ok .boolTy
  | ctx, .idT name =>
    match Ctx.lookup ctx name with
    | none => .error (.semantic s!"Identifier {name} not declared")
    | some e =>
      if kindEndsInType e then .ok e
      else .error (.semantic "Type expected")

/-- Expression handlers: `fish` yields the JS number, `hooked`/`unhooked`
yield the bare booleans `true`/`false`, `stringlit` the string, and
`Primary_id` resolves through `lookup` (`mustHaveBeenFound` on failure). -/
def analyzeExp : Ctx → Exp → Except AErr Node
  | _, .litNum v => .ok (.num v)
  | _, .hooked => .ok (.boolL true)
  | _, .unhooked => .ok (.boolL false)
  | _, .litStr s => .ok (.str s)
  | ctx, .idE name =>
    match Ctx.lookup ctx name with
    | none => .error (.semantic s!"Identifier {name} not declared")
    | some e => .ok e

/-- `Field(type, tag)` over the field list: `core.field(tag, type.rep())`. -/
def analyzeFields : Ctx → List (TypeE × String) → Except AErr (List Node)
  | _, [] => .ok []
  | ctx, (ty, name) :: rest =>
    match analyzeType ctx ty with
    | .error e => .error e
    | .ok t =>
      match analyzeFields ctx rest with
      | .error e => .error e
      | .ok fs => .ok (.fieldN name t :: fs)

/-- `Param(type, tag)` over the parameter list: check-not-declared (against
the whole chain), build the variable, add it to the current (function body)
frame. -/
def analyzeParams : Ctx → List (TypeE × String) → Except AErr (List Node × Ctx)
  | ctx, [] => .ok ([], ctx)
  | ctx, (ty, name) :: rest =>
    match mustNotAlreadyBeDeclaredCheck ctx name with
    | .error e => .error e
    | .ok _ =>
      match analyzeType ctx ty with
      | .error e => .error e
      | .ok t =>
        let v := Node.variableN name false t
        let ctx2 := Ctx.add ctx name v
        match analyzeParams ctx2 rest with
        | .error e => .error e
        | .ok (vs, ctx3) => .ok (v :: vs, ctx3)

/-- The back-fill `functionType.paramTypes = analyzedParams.map(p => p.type)`
(analyzer.js 278) mutates the function entity in place. The entity is shared
by: the binding `add`ed to the enclosing frame, and the child context's
`function` field; in this value model both aliases are updated. `ctx3` is
the context after the parameters were analyzed (child frame on top of the
enclosing frame). -/
def backfillCtx (ctx3 : Ctx) (name : String) (entity2 : Node) : Ctx :=
  match ctx3 with
  | [] => []
  | c :: rest =>
    { c with function := some entity2 } ::
      (match rest with
       | [] => []
       | g :: t => { g with locals := setLocal g.locals name entity2 } :: t)

/-- `ReturnStmt_long` (analyzer.js 557-564) after the expression is
analyzed: `mustBeInAFunction`, `mustReturnSomething` (the declared return
type must not be `Void`), `mustBeReturnable`. `fo` is `context.function`.
In this fragment `context.function` is always a `Function` entity whose
type is a `functionType`, so the final catch-all (the `TypeError` JS would
throw dereferencing a missing `.type.returnType`) is unreachable. -/
def checkLongReturn (fo : Option Node) (ex : Node) (ctx : Ctx) :
    Except AErr (Node × Ctx) :=
  match fo with
  | none => .error (.semantic "Return can only appear in a function")
  | some (.functionE _ (.functionTypeN _ .voidTy)) =>
    .error (.semantic "Cannot return a value from this function")
  | some (.functionE _ (.functionTypeN _ rt)) =>
    exBind (mustBeAssignable ex rt) fun _ => .ok (.returnStatement (some ex), ctx)
  | some _ => .error (.crash "TypeError: Cannot read properties of undefined (reading 'returnType')")

/-- `ReturnStmt_short` (analyzer.js 566-571): `mustBeInAFunction`,
`mustNotReturnAnything` (the declared return type must be `Void`); builds
`core.shortReturnStatement()`, whose kind is `"returnStatement"` with no
expression field. -/
def checkShortReturn (fo : Option Node) (ctx : Ctx) : Except AErr (Node × Ctx) :=
  match fo with
  | none => .error (.semantic "Return can only appear in a function")
  | some (.functionE _ (.functionTypeN _ .voidTy)) => .ok (.returnStatement none, ctx)
  | some (.functionE _ (.functionTypeN _ _)) =>
    .error (.semantic "Something should be returned")
  | some _ => .error (.crash "TypeError: Cannot read properties of undefined (reading 'returnType')")

mutual

/-- Statement handlers, one case per embedded `rep` operation; the mutable
`context` variable is the threaded `Ctx`, and a thrown error aborts the
whole analysis (`exBind`). See each case's comment for the source lines. -/
def analyzeStmt : Ctx → Stmt → Except AErr (Node × Ctx)
  -- VarDecl_variable_public / _private (analyzer.js 353-368): build the
  -- variable (evaluating type.rep() first), check-not-declared, add, analyze
  -- the initializer in the extended scope, check assignability.
  | ctx, .varDecl priv ty name init =>
    exBind (analyzeType ctx ty) fun t =>
      exBind (mustNotAlreadyBeDeclaredCheck ctx name) fun _ =>
        exBind (analyzeExp (Ctx.add ctx name (.variableN name priv t)) init) fun ex =>
          exBind (mustBeAssignable ex t) fun _ =>
            .ok (.variableDeclaration (.variableN name priv t) (some ex),
              Ctx.add ctx name (.variableN name priv t))
  -- FuncDecl_function_public (analyzer.js 267-288). The functionType starts
  -- with paramTypes undefined; cannotAssignANumberToVoid reads
  -- functionType.type, which is undefined, so that check always passes and
  -- is not represented by a branch. newChildContext({ function }) inherits
  -- the enclosing inLoop flag. After the body, context = context.parent and
  -- mustNotContainBreakInFunction checks must(!context.inLoop) against that
  -- restored context.
  | ctx, .funcDecl retTy name params body =>
    exBind (analyzeType ctx retTy) fun rt =>
      exBind (mustNotAlreadyBeDeclaredCheck ctx name) fun _ =>
        exBind
          (analyzeParams
            (Ctx.child (Ctx.add ctx name (.functionE name (.functionTypeN none rt)))
              (Ctx.inLoopC (Ctx.add ctx name (.functionE name (.functionTypeN none rt))))
              (some (.functionE name (.functionTypeN none rt))))
            params) fun pr =>
          exBind
            (analyzeStmts
              (backfillCtx pr.2 name
                (.functionE name (.functionTypeN
                  (some (pr.1.map (fun p => (Node.typeField p).getD .voidTy))) rt)))
              body) fun br =>
            if Ctx.inLoopC br.2.tail then
              .error (.semantic "Break can only appear in a loop")
            else
              .ok (.functionDeclaration name
                (.functionE name (.functionTypeN
                  (some (pr.1.map (fun p => (Node.typeField p).getD .voidTy))) rt))
                pr.1 (some br.1), br.2.tail)
  -- StructDecl (analyzer.js 382-390): the FIELDS ARE ANALYZED FIRST
  -- (fields.children.map(f => f.rep())), then the struct type is built,
  -- checked (mustNotBeSelfContaining, then add, then distinct fields) and
  -- added.
  | ctx, .structDecl name fields =>
    exBind (analyzeFields ctx fields) fun freps =>
      exBind (mustNotAlreadyBeDeclaredCheck ctx name) fun _ =>
        if includesAsField freps (.structTypeN name freps) then
          .error (.semantic "Struct type must not be self-containing")
        else if distinctFieldNames freps then
          .ok (.typeDeclaration (.structTypeN name freps),
            Ctx.add ctx name (.structTypeN name freps))
        else .error (.semantic "Fields must be distinct")
  -- IfStmt_if_else (analyzer.js 491-501): child context for each arm,
  -- restored (context = context.parent) after each arm.
  | ctx, .ifElse test cons alt =>
    exBind (analyzeExp ctx test) fun t =>
      exBind (mustHaveBooleanType t) fun _ =>
        exBind (analyzeStmts (Ctx.child ctx (Ctx.inLoopC ctx) (Ctx.functionC ctx)) cons)
          fun cp =>
          exBind
            (analyzeStmts
              (Ctx.child cp.2.tail (Ctx.inLoopC cp.2.tail) (Ctx.functionC cp.2.tail)) alt)
            fun ap =>
            .ok (.ifStatement t cp.1 (some ap.1), ap.2.tail)
  -- IfStmt_nested_if (analyzer.js 503-511): a child context is created for
  -- the consequent and NEVER restored; the trailing if is analyzed in that
  -- leaked context ("Do NOT make a new context for the alternate!"); then
  -- the handler calls core.nestedIfStatement, which core.js does not
  -- export, so the call throws a TypeError.
  | ctx, .nestedIf test cons alt =>
    exBind (analyzeExp ctx test) fun t =>
      exBind (mustHaveBooleanType t) fun _ =>
        exBind (analyzeStmts (Ctx.child ctx (Ctx.inLoopC ctx) (Ctx.functionC ctx)) cons)
          fun cp =>
          exBind (analyzeStmt cp.2 alt) fun _ =>
            .error (.crash "TypeError: core.nestedIfStatement is not a function")
  -- IfStmt_if (analyzer.js 513-520): child context, restored; builds
  -- core.shortIfStatement, whose kind is "ifStatement" with no alternate.
  | ctx, .shortIf test cons =>
    exBind (analyzeExp ctx test) fun t =>
      exBind (mustHaveBooleanType t) fun _ =>
        exBind (analyzeStmts (Ctx.child ctx (Ctx.inLoopC ctx) (Ctx.functionC ctx)) cons)
          fun cp =>
          .ok (.ifStatement t cp.1 none, cp.2.tail)
  -- WhileStmt_while (analyzer.js 548-555): child context with inLoop true.
  | ctx, .whileS test body =>
    exBind (analyzeExp ctx test) fun t =>
      exBind (mustHaveBooleanType t) fun _ =>
        exBind (analyzeStmts (Ctx.child ctx true (Ctx.functionC ctx)) body) fun bp =>
          .ok (.whileStatement t bp.1, bp.2.tail)
  -- BreakStmt_break (analyzer.js 585-588): mustBeInLoop.
  | ctx, .breakS =>
    if Ctx.inLoopC ctx then .ok (.breakStatementN, ctx)
    else .error (.semantic "Break can only appear in a loop")
  -- ReturnStmt_long (analyzer.js 557-564): expression first, then the
  -- function checks.
  | ctx, .returnLong e =>
    exBind (analyzeExp ctx e) fun ex =>
      checkLongReturn (Ctx.functionC ctx) ex ctx
  -- ReturnStmt_short (analyzer.js 566-571).
  | ctx, .returnShort => checkShortReturn (Ctx.functionC ctx) ctx
  -- PrintStmt (analyzer.js 486-489): no checks.
  | ctx, .printS e =>
    exBind (analyzeExp ctx e) fun ex => .ok (.printStatement ex, ctx)

/-- `statements.map(s => s.rep())` (Program and Block), with the context
mutations of each statement visible to the next. -/
def analyzeStmts : Ctx → List Stmt → Except AErr (List Node × Ctx)
  | ctx, [] => .ok ([], ctx)
  | ctx, s :: rest =>
    exBind (analyzeStmt ctx s) fun p =>
      exBind (analyzeStmts p.2 rest) fun q =>
        .ok (p.1 :: q.1, q.2)

end

/-- `analyze(match)` on a whole program: run the statements in the root
context and wrap them in a `Program` node. -/
def analyze (statements : List Stmt) : Except AErr Node :=
  match analyzeStmts rootCtx statements with
  | .error e => .error e
  | .ok (ns, _) => .ok (.program ns)

/-!
## Struct containment, pointer-level model (for the acyclicity rule)

`includesAsField` compares field types to the struct type with `===`
(object identity). To reason about configurations of several struct objects
referring to each other, types are modelled here with explicit references:
a `structR name` is a pointer to the struct object declared under `name`
(declaration names are unique, so name equality is reference equality), and
a `StructEnv` maps each declared name to its field list.
-/

/-- Reference-level type values: base singletons, array types, and pointers
to declared struct objects. -/
inductive TyRef where
  | numberR
  | stringR
  | boolR
  | voidR
  | arrayR (base : TyRef)
  | structR (name : String)
deriving Repr, DecidableEq

/-- A `Field` of a struct: `core.field(name, type)`. -/
structure FieldR where
  name : String
  ty : TyRef
deriving Repr, DecidableEq

/-- The declared struct objects: name ↦ field list. -/
abbrev StructEnv := List (String × List FieldR)

/-- `includesAsField` (analyzer.js 123-129) at the reference level:
`structType.fields.some((field) => field.type === type)`. The recursive
traversal through nested struct fields (line 128) is commented out in the
source, so only the immediate fields are inspected. -/
def includesAsFieldRef (fields : List FieldR) (target : TyRef) : Bool :=
  fields.any (fun f => f.ty == target)

/-- `mustNotBeSelfContaining` (analyzer.js 131-134) at the reference level:
fails iff `includesAsField(structType, structType)`. -/
def mustNotBeSelfContainingRef (name : String) (fields : List FieldR) : Except AErr Unit :=
  if includesAsFieldRef fields (.structR name) then
    .error (.semantic "Struct type must not be self-containing")
  else .ok ()

/-- The struct names a field list mentions directly as field types. -/
def directStructRefs (fields : List FieldR) : List String :=
  fields.filterMap (fun f => match f.ty with | .structR n => some n | _ => none)

/-- Modelled from the spec: "its field-type graph, followed transitively
through nested struct fields, never reaches itself". `reachesStruct env fuel
src tgt` holds when `tgt` is reachable from `src`'s fields through at most
`fuel` nested-struct steps. -/
def reachesStruct (env : StructEnv) : Nat → String → String → Bool
  | 0, _, _ => false
  | fuel + 1, src, tgt =>
    match env.lookup src with
    | none => false
    | some fields =>
      let direct := directStructRefs fields
      direct.contains tgt || direct.any (fun n => reachesStruct env fuel n tgt)

/-!
## Predicates for the idempotence proof

A "decorated AST node" in the sense of the data model contains no bare JS
array in a node position (`core.js` builds statement lists as array-valued
FIELDS of nodes, never as nodes); `NoRaw` states that. The optimizer's
output may contain `rawList` values (a reduced `if` stores one), which is
why idempotence needs the auxiliary notion of an element-wise fixed point.
-/

/-- Is this value a bare JS array? -/
def Node.isRaw : Node → Bool
  | .rawList _ => true
  | _ => false

mutual

/-- The value contains no bare JS array (`rawList`) anywhere. -/
def NoRaw : Node → Bool
  | .num _ => true
  | .str _ => true
  | .boolL _ => true
  | .rawList _ => false
  | .program ss => NoRawL ss
  | .functionDeclaration _ fn ps b => NoRaw fn && NoRawL ps && NoRawLO b
  | .functionE _ ty => NoRaw ty
  | .functionTypeN ps rt => NoRawLO ps && NoRaw rt
  | .typeDeclaration ty => NoRaw ty
  | .arrayTypeN b => NoRaw b
  | .arrayExpression es => NoRawL es
  | .emptyArrayN ty => NoRaw ty
  | .voidTy => true
  | .numberTy => true
  | .stringTy => true
  | .boolTy => true
  | .structTypeN _ fs => NoRawL fs
  | .fieldN _ ty => NoRaw ty
  | .variableDeclaration v i => NoRaw v && NoRawO i
  | .variableN _ _ ty => NoRaw ty
  | .ifStatement t c a => NoRaw t && NoRawL c && NoRawLO a
  | .forRangeStatement it lo _ hi b => NoRaw it && NoRaw lo && NoRaw hi && NoRawL b
  | .forStatement it co b => NoRaw it && NoRaw co && NoRawL b
  | .whileStatement t b => NoRaw t && NoRawL b
  | .returnStatement e => NoRawO e
  | .incrementStatement o => NoRaw o
  | .decrementStatement o => NoRaw o
  | .breakStatementN => true
  | .printStatement a => NoRaw a
  | .binaryE _ l r ty => NoRaw l && NoRaw r && NoRaw ty
  | .unaryE _ o ty => NoRaw o && NoRawO ty
  | .functionCallN c args ty => NoRaw c && NoRawL args && NoRaw ty
  | .tryCatchStatement t c => NoRawL t && NoRawLO c

/-- `NoRaw` on every element of a list. -/
def NoRawL : List Node → Bool
  | [] => true
  | x :: xs => NoRaw x && NoRawL xs

/-- `NoRaw` on an optional node. -/
def NoRawO : Option Node → Bool
  | none => true
  | some n => NoRaw n

/-- `NoRaw` on an optional list. -/
def NoRawLO : Option (List Node) → Bool
  | none => true
  | some l => NoRawL l

end

/-!
## Claim theorems
-/

/-- C1: the claim states that optimizing `core.binary(op, a, b)` for numeric
literals folds to the directly evaluated value. It does not: `core.binary`
tags its nodes `kind: "BinaryExpression"`, while the handler table's key is
`binaryExpression`, so the dispatch `optimizers?.[node.kind]` finds no
handler and returns the node unchanged. At the failing input
`core.binary("+", 5, 8, numberType)` the optimizer returns the node itself,
not the literal `13` that the folding handler (and the repository's own test
"folds +") would produce. -/
theorem claim1_folding_never_fires :
    optimize (.binaryE "+" (.num 5) (.num 8) .numberTy)
      = .ok (.binaryE "+" (.num 5) (.num 8) .numberTy) ∧
    binaryExpressionHandler (.binaryE "+" (.num 5) (.num 8) .numberTy)
      = .ok (.num 13) := by
  constructor
  · rfl
  · have h : binaryExpressionHandler (.binaryE "+" (.num 5) (.num 8) .numberTy)
        = .ok (.num (5 + 8)) := rfl
    rw [h]
    norm_num

/-- C2: the claim states that `optimize` is total on every decorated AST the
analyzer can produce, including a value-less short return. It is not: the
analyzer produces `core.shortReturnStatement()` (kind `"returnStatement"`,
no `expression` field) for `reel` in a void function — shown by the second
conjunct — and the `returnStatement` handler then evaluates
`optimize(s.expression)` = `optimize(undefined)`, which throws a `TypeError`
reading `.kind` of `undefined`. -/
theorem claim2_optimizer_crashes_on_short_return :
    optimize (.returnStatement none)
      = .error "TypeError: Cannot read properties of undefined (reading 'kind')" ∧
    analyze [.funcDecl .voidT "f" [] [.returnShort]]
      = .ok (.program [.functionDeclaration "f"
          (.functionE "f" (.functionTypeN (some []) .voidTy)) []
          (some [.returnStatement none])]) := by
  constructor
  · rfl
  · rfl

/-- C7: the claim states the algebraic identities (x+0→x etc.) are applied
when exactly one operand is a numeric literal. They are not, for the same
kind/key mismatch as C1: at the failing input `core.binary("+", x, 0)` the
optimizer returns the node unchanged instead of `x` (which the unreachable
handler, and the repository's test "optimizes +0", would produce). -/
theorem claim7_identities_never_fire :
    optimize (.binaryE "+" (.variableN "x" false .numberTy) (.num 0) .numberTy)
      = .ok (.binaryE "+" (.variableN "x" false .numberTy) (.num 0) .numberTy) ∧
    binaryExpressionHandler
        (.binaryE "+" (.variableN "x" false .numberTy) (.num 0) .numberTy)
      = .ok (.variableN "x" false .numberTy) := by
  constructor
  · rfl
  · rfl

/-- C8: of the five claimed dead-code eliminations, three hold (if/else with
a literal test keeps exactly the taken branch; while-false and a range loop
with literal low > high reduce to the empty list), but an else-less if with a
literal-false test CRASHES (its kind is `"ifStatement"`, so the handler runs
`s.alternate.flatMap` on the missing field — the repository's own test
"optimizes short-if-false" expects `[]`), and a collection loop over a
literal empty array is NOT eliminated: the part_002 `forStatement` handler
has no such case, and the part_003 draft tests `s.collection?.kind ===
"EmptyArray"` while `core.emptyArray` tags nodes `"emptyArray"`, so the test
is false for every node (last conjunct). -/
theorem claim8_dead_code_elimination :
    optimize (.ifStatement (.boolL true)
        [.incrementStatement (.variableN "x" false .numberTy)]
        (some [.decrementStatement (.variableN "x" false .numberTy)]))
      = .ok (.rawList [.incrementStatement (.variableN "x" false .numberTy)]) ∧
    optimize (.ifStatement (.boolL false)
        [.incrementStatement (.variableN "x" false .numberTy)] none)
      = .error "TypeError: Cannot read properties of undefined (reading 'flatMap')" ∧
    optimize (.whileStatement (.boolL false)
        [.incrementStatement (.variableN "x" false .numberTy)])
      = .ok (.rawList []) ∧
    optimize (.forRangeStatement (.variableN "i" true .numberTy)
        (.num 5) "..." (.num 3)
        [.incrementStatement (.variableN "x" false .numberTy)])
      = .ok (.rawList []) ∧
    optimize (.forStatement (.variableN "i" true .numberTy)
        (.emptyArrayN (.arrayTypeN .numberTy))
        [.incrementStatement (.variableN "x" false .numberTy)])
      = .ok (.forStatement (.variableN "i" true .numberTy)
        (.emptyArrayN (.arrayTypeN .numberTy))
        [.incrementStatement (.variableN "x" false .numberTy)]) ∧
    ∀ n : Node, (n.kindString == some "EmptyArray") = false := by
  refine ⟨rfl, rfl, rfl, rfl, rfl, ?_⟩
  intro n
  cases n <;> rfl

/-- C6: the claim states scope discipline holds for every construct,
including the consequent of an if/else-if chain. The `IfStmt_nested_if`
handler creates a child context for the consequent and never restores it
(the alternate is analyzed inside the leaked scope), then calls
`core.nestedIfStatement`, which `core.js` does not export, so analysis of
any program containing a nested if throws a `TypeError` instead of
proceeding. First conjunct: the alternate of a nested if RESOLVES a variable
declared in the consequent (if the scope were restored the result would be
the not-declared error) and analysis then crashes. Second conjunct: the
properly-scoped if/else form rejects the same reference. -/
theorem claim6_nested_if_leaks_scope_and_crashes :
    analyze [.nestedIf .hooked
        [.varDecl false .numberT "x" (.litNum 1)]
        (.shortIf .hooked [.printS (.idE "x")])]
      = .error (.crash "TypeError: core.nestedIfStatement is not a function") ∧
    analyze [.ifElse .hooked
        [.varDecl false .numberT "x" (.litNum 1)]
        [.printS (.idE "x")]]
      = .error (.semantic "Identifier x not declared") := by
  constructor
  · rfl
  · rfl

/-- Helper: first-match lookup over the scope chain succeeds exactly when
some frame (current or ancestor) binds the name. -/
theorem ctxLookup_isSome_eq_any (ctx : Ctx) (name : String) :
    (Ctx.lookup ctx name).isSome
      = ctx.any (fun f => (lookupIn f.locals name).isSome) := by
  induction ctx with
  | nil => rfl
  | cons f rest ih =>
    rw [Ctx.lookup]
    cases h : lookupIn f.locals name with
    | none => simp [List.any_cons, h, ih]
    | some e => simp [List.any_cons, h]

/-- C4 counterexample: the claim states that a declaration whose name is
bound only in an ancestor frame is permitted. It is not: `x` is bound in the
root frame, and redeclaring it inside the while body's child frame is
rejected, because `mustNotAlreadyBeDeclared` consults `lookup`, which walks
the whole parent chain. -/
theorem claim4_counterexample_outer_shadowing_rejected :
    analyze [.varDecl false .numberT "x" (.litNum 1),
             .whileS .unhooked [.varDecl false .numberT "x" (.litNum 2)]]
      = .error (.semantic "Identifier x already declared") := rfl

/-- C4 amended: the unique-declaration check rejects exactly those
declarations whose name is already bound in SOME frame of the scope chain —
the current frame or any ancestor — not only the current frame (first
conjunct, for every context and name). Same-frame redeclaration is still
rejected (second conjunct), and a name not bound anywhere in the chain is
accepted in a nested scope (third conjunct). -/
theorem claim4_amended_check_consults_whole_chain :
    (∀ (ctx : Ctx) (name : String),
      mustNotAlreadyBeDeclaredCheck ctx name
        = (if ctx.any (fun f => (lookupIn f.locals name).isSome) then
            .error (.semantic s!"Identifier {name} already declared")
          else .ok ())) ∧
    analyze [.varDecl false .numberT "x" (.litNum 1),
             .varDecl false .numberT "x" (.litNum 2)]
      = .error (.semantic "Identifier x already declared") ∧
    analyze [.varDecl false .numberT "x" (.litNum 1),
             .whileS .unhooked [.varDecl false .numberT "y" (.litNum 2)]]
      = .ok (.program
          [.variableDeclaration (.variableN "x" false .numberTy) (some (.num 1)),
           .whileStatement (.boolL false)
             [.variableDeclaration (.variableN "y" false .numberTy) (some (.num 2))]]) := by
  refine ⟨?_, rfl, rfl⟩
  intro ctx name
  rw [mustNotAlreadyBeDeclaredCheck, ctxLookup_isSome_eq_any]

/-- C3 counterexample: the claim states a struct whose field-type graph
reaches itself transitively (A has a field of struct B, B has a field of
struct A) is rejected by the analyzer's self-containment rule. The rule does
not see it: `includesAsField` inspects only the immediate fields (the
recursive traversal is commented out), so `mustNotBeSelfContaining` passes
on A even though A reaches itself through B. -/
theorem claim3_counterexample_transitive_cycle_not_rejected :
    mustNotBeSelfContainingRef "A" [⟨"f", .structR "B"⟩] = .ok () ∧
    reachesStruct
      [("A", [⟨"f", .structR "B"⟩]), ("B", [⟨"g", .structR "A"⟩])] 2 "A" "A"
      = true := by
  constructor
  · rfl
  · rfl

/-- C3 amended: the self-containment rule rejects exactly DIRECT
self-containment — a field whose type is (the reference to) the struct
itself; transitive cycles through nested struct fields are not detected by
this rule (first conjunct: the check errors iff the struct's own reference
occurs among its immediate field types). Transitively cyclic declarations
nevertheless fail analysis earlier with a not-declared error, because a
struct's fields are resolved before its name is bound, so no forward or self
reference can be expressed (second conjunct shows the representative case). -/
theorem claim3_amended_only_direct_containment_rejected :
    (∀ (name : String) (fields : List FieldR),
      (∃ e, mustNotBeSelfContainingRef name fields = .error e)
        ↔ TyRef.structR name ∈ fields.map FieldR.ty) ∧
    analyze [.structDecl "B" [(.idT "A", "g")]]
      = .error (.semantic "Identifier A not declared") := by
  constructor
  · intro name fields
    rw [mustNotBeSelfContainingRef]
    constructor
    · intro he
      by_cases h : includesAsFieldRef fields (.structR name) = true
      · rw [includesAsFieldRef, List.any_eq_true] at h
        obtain ⟨f, hf, hty⟩ := h
        rw [beq_iff_eq] at hty
        exact List.mem_map.mpr ⟨f, hf, hty⟩
      · rw [if_neg h] at he
        obtain ⟨e, he⟩ := he
        cases he
    · intro hm
      obtain ⟨f, hf, hty⟩ := List.mem_map.mp hm
      have h : includesAsFieldRef fields (.structR name) = true := by
        rw [includesAsFieldRef, List.any_eq_true]
        exact ⟨f, hf, by rw [beq_iff_eq]; exact hty⟩
      rw [if_pos h]
      exact ⟨_, rfl⟩
  · rfl

/-- C5 counterexample: the claim states the declared entity is registered
before its fields are analyzed, so a struct's field list can refer to the
struct's own name. It cannot: `StructDecl` analyzes the fields FIRST and
adds the struct type to the scope afterwards, so `boat A { A x }` fails with
a not-declared error instead of resolving. -/
theorem claim5_counterexample_struct_cannot_name_itself :
    analyze [.structDecl "A" [(.idT "A", "x")]]
      = .error (.semantic "Identifier A not declared") := rfl

/-!
## Unfolding equations for the optimizer

The mutual structural recursion over the nested inductive does not produce
equation lemmas usable by `simp`, so the defining equations are restated here
(each holds by `rfl`) for use in the idempotence proof.
-/

@[simp] theorem opt_num (v : ℚ) : optimize (.num v) = .ok (.num v) := rfl

@[simp] theorem opt_str (s : String) : optimize (.str s) = .ok (.str s) := rfl

@[simp] theorem opt_boolL (b : Bool) : optimize (.boolL b) = .ok (.boolL b) := rfl

@[simp] theorem opt_rawList (l : List Node) : optimize (.rawList l) = .ok (.rawList l) := rfl

@[simp] theorem opt_program (ss : List Node) : optimize (.program ss) = .ok (.program ss) := rfl

@[simp] theorem opt_functionE (n : String) (t : Node) :
    optimize (.functionE n t) = .ok (.functionE n t) := rfl

@[simp] theorem opt_functionTypeN (ps : Option (List Node)) (rt : Node) :
    optimize (.functionTypeN ps rt) = .ok (.functionTypeN ps rt) := rfl

@[simp] theorem opt_typeDeclaration (t : Node) :
    optimize (.typeDeclaration t) = .ok (.typeDeclaration t) := rfl

@[simp] theorem opt_arrayTypeN (t : Node) :
    optimize (.arrayTypeN t) = .ok (.arrayTypeN t) := rfl

@[simp] theorem opt_emptyArrayN (t : Node) :
    optimize (.emptyArrayN t) = .ok (.emptyArrayN t) := rfl

@[simp] theorem opt_voidTy : optimize .voidTy = .ok .voidTy := rfl

@[simp] theorem opt_numberTy : optimize .numberTy = .ok .numberTy := rfl

@[simp] theorem opt_stringTy : optimize .stringTy = .ok .stringTy := rfl

@[simp] theorem opt_boolTy : optimize .boolTy = .ok .boolTy := rfl

@[simp] theorem opt_structTypeN (n : String) (fs : List Node) :
    optimize (.structTypeN n fs) = .ok (.structTypeN n fs) := rfl

@[simp] theorem opt_fieldN (n : String) (t : Node) :
    optimize (.fieldN n t) = .ok (.fieldN n t) := rfl

@[simp] theorem opt_variableN (n : String) (r : Bool) (t : Node) :
    optimize (.variableN n r t) = .ok (.variableN n r t) := rfl

@[simp] theorem opt_breakStatementN : optimize .breakStatementN = .ok .breakStatementN := rfl

@[simp] theorem opt_printStatement (a : Node) :
    optimize (.printStatement a) = .ok (.printStatement a) := rfl

@[simp] theorem opt_binaryE (op : String) (l r t : Node) :
    optimize (.binaryE op l r t) = .ok (.binaryE op l r t) := rfl

@[simp] theorem opt_unaryE (op : String) (o : Node) (t : Option Node) :
    optimize (.unaryE op o t) = .ok (.unaryE op o t) := rfl

@[simp] theorem opt_functionCallN (c : Node) (as : List Node) (t : Node) :
    optimize (.functionCallN c as t) = .ok (.functionCallN c as t) := rfl

@[simp] theorem opt_tryCatchStatement (t : List Node) (c : Option (List Node)) :
    optimize (.tryCatchStatement t c) = .ok (.tryCatchStatement t c) := rfl

theorem opt_functionDeclaration_none (n : String) (fn : Node) (ps : List Node) :
    optimize (.functionDeclaration n fn ps none)
      = exBind (optimize fn) fun fn2 =>
          .ok (.functionDeclaration n fn2 ps none) := rfl

theorem opt_functionDeclaration_some (n : String) (fn : Node) (ps : List Node)
    (b : List Node) :
    optimize (.functionDeclaration n fn ps (some b))
      = (exBind (optimize fn) fun fn2 =>
          exBind (optimizeStmts b) fun b2 =>
            .ok (.functionDeclaration n fn2 ps (some b2))) := rfl

theorem opt_arrayExpression (es : List Node) :
    optimize (.arrayExpression es)
      = exBind (optimizeEach es) fun es2 => .ok (.arrayExpression es2) := rfl

@[simp] theorem opt_variableDeclaration_none (v : Node) :
    optimize (.variableDeclaration v none)
      = (exBind (optimize v) fun _ =>
          .error "TypeError: Cannot read properties of null (reading 'kind')") := rfl

theorem opt_variableDeclaration_some (v i : Node) :
    optimize (.variableDeclaration v (some i))
      = (exBind (optimize v) fun v2 =>
          exBind (optimize i) fun i2 =>
            .ok (.variableDeclaration v2 (some i2))) := rfl

theorem opt_ifStatement_none (test : Node) (cons : List Node) :
    optimize (.ifStatement test cons none)
      = (exBind (optimize test) fun _ =>
          exBind (optimizeStmts cons) fun _ =>
            .error "TypeError: Cannot read properties of undefined (reading 'flatMap')") := rfl

theorem opt_ifStatement_some (test : Node) (cons a : List Node) :
    optimize (.ifStatement test cons (some a))
      = (exBind (optimize test) fun t =>
          exBind (optimizeStmts cons) fun c =>
            exBind (optimizeStmts a) fun a2 =>
              ifFinish t c a2) := rfl

theorem opt_whileStatement (test : Node) (body : List Node) :
    optimize (.whileStatement test body)
      = (exBind (optimize test) fun t =>
          if t.boolValue == some false then .ok (.rawList [])
          else
            exBind (optimizeStmts body) fun b =>
              .ok (.whileStatement t b)) := rfl

theorem opt_forRangeStatement (iter lo : Node) (op : String) (hi : Node)
    (body : List Node) :
    optimize (.forRangeStatement iter lo op hi body)
      = (exBind (optimize iter) fun iter2 =>
          exBind (optimize lo) fun lo2 =>
            exBind (optimize hi) fun hi2 =>
              exBind (optimizeStmts body) fun b =>
                forRangeFinish iter2 lo2 op hi2 b) := rfl

theorem opt_forStatement (iter coll : Node) (body : List Node) :
    optimize (.forStatement iter coll body)
      = (exBind (optimize iter) fun iter2 =>
          exBind (optimize coll) fun coll2 =>
            exBind (optimizeStmts body) fun b =>
              .ok (.forStatement iter2 coll2 b)) := rfl

@[simp] theorem opt_returnStatement_none :
    optimize (.returnStatement none)
      = .error "TypeError: Cannot read properties of undefined (reading 'kind')" := rfl

theorem opt_returnStatement_some (e : Node) :
    optimize (.returnStatement (some e))
      = exBind (optimize e) fun e2 => .ok (.returnStatement (some e2)) := rfl

theorem opt_incrementStatement (o : Node) :
    optimize (.incrementStatement o)
      = exBind (optimize o) fun o2 => .ok (.incrementStatement o2) := rfl

theorem opt_decrementStatement (o : Node) :
    optimize (.decrementStatement o)
      = exBind (optimize o) fun o2 => .ok (.decrementStatement o2) := rfl

@[simp] theorem optStmts_nil : optimizeStmts [] = .ok [] := rfl

theorem optStmts_cons (s : Node) (rest : List Node) :
    optimizeStmts (s :: rest)
      = (exBind (optimize s) fun r =>
          exBind (optimizeStmts rest) fun rs =>
            .ok (spliceInto r rs)) := rfl

@[simp] theorem optEach_nil : optimizeEach [] = .ok [] := rfl

theorem optEach_cons (s : Node) (rest : List Node) :
    optimizeEach (s :: rest)
      = (exBind (optimize s) fun r =>
          exBind (optimizeEach rest) fun rs =>
            .ok (r :: rs)) := rfl

/-!
## Infrastructure for the idempotence proof
-/

@[simp] theorem exBind_ok {E A B : Type} (a : A) (f : A → Except E B) :
    exBind (.ok a) f = f a := rfl

@[simp] theorem exBind_error {E A B : Type} (e : E) (f : A → Except E B) :
    exBind (.error e) f = .error e := rfl

theorem exBind_eq_ok {E A B : Type} {x : Except E A} {f : A → Except E B} {y : B}
    (h : exBind x f = .ok y) : ∃ a, x = .ok a ∧ f a = .ok y := by
  cases x with
  | error e => simp at h
  | ok a => exact ⟨a, rfl, h⟩

@[simp] theorem noraw_rawList (l : List Node) : NoRaw (.rawList l) = false := rfl

theorem noraw_functionDeclaration (n : String) (fn : Node) (ps : List Node)
    (b : Option (List Node)) :
    NoRaw (.functionDeclaration n fn ps b) = (NoRaw fn && NoRawL ps && NoRawLO b) := rfl

theorem noraw_arrayExpression (es : List Node) :
    NoRaw (.arrayExpression es) = NoRawL es := rfl

theorem noraw_variableDeclaration (v : Node) (i : Option Node) :
    NoRaw (.variableDeclaration v i) = (NoRaw v && NoRawO i) := rfl

theorem noraw_ifStatement (t : Node) (c : List Node) (a : Option (List Node)) :
    NoRaw (.ifStatement t c a) = (NoRaw t && NoRawL c && NoRawLO a) := rfl

theorem noraw_whileStatement (t : Node) (b : List Node) :
    NoRaw (.whileStatement t b) = (NoRaw t && NoRawL b) := rfl

theorem noraw_forRangeStatement (it lo : Node) (op : String) (hi : Node) (b : List Node) :
    NoRaw (.forRangeStatement it lo op hi b)
      = (NoRaw it && NoRaw lo && NoRaw hi && NoRawL b) := rfl

theorem noraw_forStatement (it co : Node) (b : List Node) :
    NoRaw (.forStatement it co b) = (NoRaw it && NoRaw co && NoRawL b) := rfl

theorem noraw_returnStatement (e : Option Node) :
    NoRaw (.returnStatement e) = NoRawO e := rfl

theorem noraw_incrementStatement (o : Node) : NoRaw (.incrementStatement o) = NoRaw o := rfl

theorem noraw_decrementStatement (o : Node) : NoRaw (.decrementStatement o) = NoRaw o := rfl

@[simp] theorem norawl_nil : NoRawL [] = true := rfl

@[simp] theorem norawl_cons (x : Node) (xs : List Node) :
    NoRawL (x :: xs) = (NoRaw x && NoRawL xs) := rfl

@[simp] theorem norawo_none : NoRawO none = true := rfl

@[simp] theorem norawo_some (n : Node) : NoRawO (some n) = NoRaw n := rfl

@[simp] theorem norawlo_none : NoRawLO none = true := rfl

@[simp] theorem norawlo_some (l : List Node) : NoRawLO (some l) = NoRawL l := rfl

theorem isRaw_iff (n : Node) : n.isRaw = true ↔ ∃ l, n = .rawList l := by
  cases n <;> simp [Node.isRaw]

theorem spliceInto_of_not_raw {r : Node} (h : r.isRaw = false) (rs : List Node) :
    spliceInto r rs = r :: rs := by
  cases r <;> first
    | rfl
    | simp [Node.isRaw] at h

theorem optimizeStmts_fixed :
    ∀ l : List Node, (∀ x ∈ l, optimize x = .ok x ∧ x.isRaw = false) →
      optimizeStmts l = .ok l := by
  intro l h
  induction l with
  | nil => rfl
  | cons s rest ih =>
    rw [optStmts_cons, (h s (by simp)).1, exBind_ok,
      ih (fun x hx => h x (by simp [hx])), exBind_ok,
      spliceInto_of_not_raw (h s (by simp)).2]

theorem optimizeEach_fixed :
    ∀ l : List Node, (∀ x ∈ l, optimize x = .ok x) → optimizeEach l = .ok l := by
  intro l h
  induction l with
  | nil => rfl
  | cons s rest ih =>
    rw [optEach_cons, h s (by simp), exBind_ok,
      ih (fun x hx => h x (by simp [hx])), exBind_ok]

theorem ifFinish_cases (t : Node) (c a2 : List Node) :
    (∃ b, t.boolValue = some b ∧ ifFinish t c a2 = .ok (.rawList (if b then c else a2))) ∨
    (t.boolValue = none ∧ ifFinish t c a2 = .ok (.ifStatement t c (some a2))) := by
  cases h : t.boolValue with
  | some b => exact Or.inl ⟨b, rfl, by simp [ifFinish, h]⟩
  | none => exact Or.inr ⟨rfl, by simp [ifFinish, h]⟩

theorem forRangeFinish_cases (it lo : Node) (op : String) (hi : Node) (b : List Node) :
    forRangeFinish it lo op hi b = .ok (.rawList []) ∨
    forRangeFinish it lo op hi b = .ok (.forRangeStatement it lo op hi b) := by
  unfold forRangeFinish
  split
  · split
    · exact Or.inl rfl
    · exact Or.inr rfl
  · exact Or.inr rfl

theorem pass_case {n m : Node} (hopt : optimize n = .ok m)
    (hid : optimize n = .ok n) (hnr : n.isRaw = false) :
    optimize m = .ok m ∧
    (∀ l, m = .rawList l → ∀ x ∈ l, optimize x = .ok x ∧ x.isRaw = false) := by
  rw [hid] at hopt
  injection hopt with h
  subst h
  refine ⟨hid, ?_⟩
  intro l hl
  subst hl
  simp [Node.isRaw] at hnr

/-- Main lemma for idempotence, by strong induction on size: on inputs
without bare arrays, a successful optimize result is a fixed point, and a
bare-array result consists of fixed-point, non-array statements; successful
`flatMap`/`map` traversals of no-raw lists likewise produce element-wise
fixed points. -/
theorem optimize_idem_aux : ∀ k : Nat,
    (∀ n : Node, sizeOf n ≤ k → NoRaw n = true → ∀ m, optimize n = .ok m →
      optimize m = .ok m ∧
      (∀ l, m = .rawList l → ∀ x ∈ l, optimize x = .ok x ∧ x.isRaw = false)) ∧
    (∀ ss : List Node, sizeOf ss ≤ k → NoRawL ss = true → ∀ l2, optimizeStmts ss = .ok l2 →
      ∀ x ∈ l2, optimize x = .ok x ∧ x.isRaw = false) ∧
    (∀ ss : List Node, sizeOf ss ≤ k → NoRawL ss = true → ∀ l2, optimizeEach ss = .ok l2 →
      ∀ x ∈ l2, optimize x = .ok x) := by
  intro k
  induction k with
  | zero =>
    refine ⟨?_, ?_, ?_⟩
    · intro n hn
      exfalso
      cases n <;> simp at hn
    · intro ss hs
      exfalso
      cases ss <;> simp at hs
    · intro ss hs
      exfalso
      cases ss <;> simp at hs
  | succ k ih =>
    obtain ⟨ihP, ihQ, ihR⟩ := ih
    refine ⟨?_, ?_, ?_⟩
    · intro n hsz hnr m hopt
      cases n with
      | rawList l => rw [noraw_rawList] at hnr; cases hnr
      | functionDeclaration name fn params body =>
        cases body with
        | none =>
          rw [opt_functionDeclaration_none] at hopt
          obtain ⟨fn2, hfn, hfin⟩ := exBind_eq_ok hopt
          injection hfin with hfin
          subst hfin
          rw [noraw_functionDeclaration] at hnr
          simp only [Bool.and_eq_true] at hnr
          have hs : sizeOf fn ≤ k := by simp at hsz; omega
          have Pfn := ihP fn hs hnr.1.1 fn2 hfn
          refine ⟨?_, ?_⟩
          · rw [opt_functionDeclaration_none, Pfn.1, exBind_ok]
          · intro l hl; cases hl
        | some b =>
          rw [opt_functionDeclaration_some] at hopt
          obtain ⟨fn2, hfn, h1⟩ := exBind_eq_ok hopt
          obtain ⟨b2, hb, h2⟩ := exBind_eq_ok h1
          injection h2 with h2
          subst h2
          rw [noraw_functionDeclaration] at hnr
          simp only [Bool.and_eq_true, norawlo_some] at hnr
          have hsf : sizeOf fn ≤ k := by simp at hsz; omega
          have hsb : sizeOf b ≤ k := by simp at hsz; omega
          have Pfn := ihP fn hsf hnr.1.1 fn2 hfn
          have Qb := ihQ b hsb hnr.2 b2 hb
          refine ⟨?_, ?_⟩
          · rw [opt_functionDeclaration_some, Pfn.1, exBind_ok,
              optimizeStmts_fixed b2 Qb, exBind_ok]
          · intro l hl; cases hl
      | arrayExpression es =>
        rw [opt_arrayExpression] at hopt
        obtain ⟨es2, hes, hfin⟩ := exBind_eq_ok hopt
        injection hfin with hfin
        subst hfin
        rw [noraw_arrayExpression] at hnr
        have hs : sizeOf es ≤ k := by simp at hsz; omega
        have Res := ihR es hs hnr es2 hes
        refine ⟨?_, ?_⟩
        · rw [opt_arrayExpression, optimizeEach_fixed es2 Res, exBind_ok]
        · intro l hl; cases hl
      | variableDeclaration v init =>
        cases init with
        | none =>
          rw [opt_variableDeclaration_none] at hopt
          obtain ⟨v2, hv, herr⟩ := exBind_eq_ok hopt
          exact Except.noConfusion herr
        | some i =>
          rw [opt_variableDeclaration_some] at hopt
          obtain ⟨v2, hv, h1⟩ := exBind_eq_ok hopt
          obtain ⟨i2, hi, h2⟩ := exBind_eq_ok h1
          injection h2 with h2
          subst h2
          rw [noraw_variableDeclaration] at hnr
          simp only [Bool.and_eq_true, norawo_some] at hnr
          have hsv : sizeOf v ≤ k := by simp at hsz; omega
          have hsi : sizeOf i ≤ k := by simp at hsz; omega
          have Pv := ihP v hsv hnr.1 v2 hv
          have Pi := ihP i hsi hnr.2 i2 hi
          refine ⟨?_, ?_⟩
          · rw [opt_variableDeclaration_some, Pv.1, exBind_ok, Pi.1, exBind_ok]
          · intro l hl; cases hl
      | ifStatement test cons alt =>
        cases alt with
        | none =>
          rw [opt_ifStatement_none] at hopt
          obtain ⟨t, ht, h1⟩ := exBind_eq_ok hopt
          obtain ⟨c, hc, h2⟩ := exBind_eq_ok h1
          exact Except.noConfusion h2
        | some a =>
          rw [opt_ifStatement_some] at hopt
          obtain ⟨t, ht, h1⟩ := exBind_eq_ok hopt
          obtain ⟨c, hc, h2⟩ := exBind_eq_ok h1
          obtain ⟨a2, ha, hfin⟩ := exBind_eq_ok h2
          rw [noraw_ifStatement] at hnr
          simp only [Bool.and_eq_true, norawlo_some] at hnr
          have hst : sizeOf test ≤ k := by simp at hsz; omega
          have hsc : sizeOf cons ≤ k := by simp at hsz; omega
          have hsa : sizeOf a ≤ k := by simp at hsz; omega
          have Pt := ihP test hst hnr.1.1 t ht
          have Qc := ihQ cons hsc hnr.1.2 c hc
          have Qa := ihQ a hsa hnr.2 a2 ha
          rcases ifFinish_cases t c a2 with ⟨bv, _, heq⟩ | ⟨_, heq⟩
          · rw [heq] at hfin
            injection hfin with hfin
            subst hfin
            refine ⟨opt_rawList _, ?_⟩
            intro l hl
            injection hl with hl
            subst hl
            cases bv
            · simpa using Qa
            · simpa using Qc
          · rw [heq] at hfin
            injection hfin with hfin
            subst hfin
            refine ⟨?_, ?_⟩
            · rw [opt_ifStatement_some, Pt.1, exBind_ok, optimizeStmts_fixed c Qc,
                exBind_ok, optimizeStmts_fixed a2 Qa, exBind_ok, heq]
            · intro l hl; cases hl
      | whileStatement test body =>
        rw [opt_whileStatement] at hopt
        obtain ⟨t, ht, hrest⟩ := exBind_eq_ok hopt
        rw [noraw_whileStatement] at hnr
        simp only [Bool.and_eq_true] at hnr
        have hst : sizeOf test ≤ k := by simp at hsz; omega
        have hsb : sizeOf body ≤ k := by simp at hsz; omega
        have Pt := ihP test hst hnr.1 t ht
        cases hbv : (t.boolValue == some false) with
        | true =>
          rw [hbv, if_pos rfl] at hrest
          injection hrest with hrest
          subst hrest
          refine ⟨opt_rawList _, ?_⟩
          intro l hl
          injection hl with hl
          subst hl
          intro x hx
          cases hx
        | false =>
          rw [hbv, if_neg Bool.false_ne_true] at hrest
          obtain ⟨b2, hb, hfin⟩ := exBind_eq_ok hrest
          injection hfin with hfin
          subst hfin
          have Qb := ihQ body hsb hnr.2 b2 hb
          refine ⟨?_, ?_⟩
          · rw [opt_whileStatement, Pt.1, exBind_ok, hbv, if_neg Bool.false_ne_true,
              optimizeStmts_fixed b2 Qb, exBind_ok]
          · intro l hl; cases hl
      | forRangeStatement iter lo op hi body =>
        rw [opt_forRangeStatement] at hopt
        obtain ⟨it2, hit, h1⟩ := exBind_eq_ok hopt
        obtain ⟨lo2, hlo, h2⟩ := exBind_eq_ok h1
        obtain ⟨hi2, hhi, h3⟩ := exBind_eq_ok h2
        obtain ⟨b2, hb, hfin⟩ := exBind_eq_ok h3
        rw [noraw_forRangeStatement] at hnr
        simp only [Bool.and_eq_true] at hnr
        have hsit : sizeOf iter ≤ k := by simp at hsz; omega
        have hslo : sizeOf lo ≤ k := by simp at hsz; omega
        have hshi : sizeOf hi ≤ k := by simp at hsz; omega
        have hsb : sizeOf body ≤ k := by simp at hsz; omega
        have Pit := ihP iter hsit hnr.1.1.1 it2 hit
        have Plo := ihP lo hslo hnr.1.1.2 lo2 hlo
        have Phi := ihP hi hshi hnr.1.2 hi2 hhi
        have Qb := ihQ body hsb hnr.2 b2 hb
        rcases forRangeFinish_cases it2 lo2 op hi2 b2 with heq | heq
        · rw [heq] at hfin
          injection hfin with hfin
          subst hfin
          refine ⟨opt_rawList _, ?_⟩
          intro l hl
          injection hl with hl
          subst hl
          intro x hx
          cases hx
        · rw [heq] at hfin
          injection hfin with hfin
          subst hfin
          refine ⟨?_, ?_⟩
          · rw [opt_forRangeStatement, Pit.1, exBind_ok, Plo.1, exBind_ok, Phi.1,
              exBind_ok, optimizeStmts_fixed b2 Qb, exBind_ok, heq]
          · intro l hl; cases hl
      | forStatement iter coll body =>
        rw [opt_forStatement] at hopt
        obtain ⟨it2, hit, h1⟩ := exBind_eq_ok hopt
        obtain ⟨co2, hco, h2⟩ := exBind_eq_ok h1
        obtain ⟨b2, hb, hfin⟩ := exBind_eq_ok h2
        injection hfin with hfin
        subst hfin
        rw [noraw_forStatement] at hnr
        simp only [Bool.and_eq_true] at hnr
        have hsit : sizeOf iter ≤ k := by simp at hsz; omega
        have hsco : sizeOf coll ≤ k := by simp at hsz; omega
        have hsb : sizeOf body ≤ k := by simp at hsz; omega
        have Pit := ihP iter hsit hnr.1.1 it2 hit
        have Pco := ihP coll hsco hnr.1.2 co2 hco
        have Qb := ihQ body hsb hnr.2 b2 hb
        refine ⟨?_, ?_⟩
        · rw [opt_forStatement, Pit.1, exBind_ok, Pco.1, exBind_ok,
            optimizeStmts_fixed b2 Qb, exBind_ok]
        · intro l hl; cases hl
      | returnStatement e =>
        cases e with
        | none => exact Except.noConfusion hopt
        | some e1 =>
          rw [opt_returnStatement_some] at hopt
          obtain ⟨e2, he, hfin⟩ := exBind_eq_ok hopt
          injection hfin with hfin
          subst hfin
          rw [noraw_returnStatement, norawo_some] at hnr
          have hs : sizeOf e1 ≤ k := by simp at hsz; omega
          have Pe := ihP e1 hs hnr e2 he
          refine ⟨?_, ?_⟩
          · rw [opt_returnStatement_some, Pe.1, exBind_ok]
          · intro l hl; cases hl
      | incrementStatement o =>
        rw [opt_incrementStatement] at hopt
        obtain ⟨o2, ho, hfin⟩ := exBind_eq_ok hopt
        injection hfin with hfin
        subst hfin
        rw [noraw_incrementStatement] at hnr
        have hs : sizeOf o ≤ k := by simp at hsz; omega
        have Po := ihP o hs hnr o2 ho
        refine ⟨?_, ?_⟩
        · rw [opt_incrementStatement, Po.1, exBind_ok]
        · intro l hl; cases hl
      | decrementStatement o =>
        rw [opt_decrementStatement] at hopt
        obtain ⟨o2, ho, hfin⟩ := exBind_eq_ok hopt
        injection hfin with hfin
        subst hfin
        rw [noraw_decrementStatement] at hnr
        have hs : sizeOf o ≤ k := by simp at hsz; omega
        have Po := ihP o hs hnr o2 ho
        refine ⟨?_, ?_⟩
        · rw [opt_decrementStatement, Po.1, exBind_ok]
        · intro l hl; cases hl
      | num v => exact pass_case hopt rfl rfl
      | str s => exact pass_case hopt rfl rfl
      | boolL b => exact pass_case hopt rfl rfl
      | program ss => exact pass_case hopt rfl rfl
      | functionE nm t => exact pass_case hopt rfl rfl
      | functionTypeN ps rt => exact pass_case hopt rfl rfl
      | typeDeclaration t => exact pass_case hopt rfl rfl
      | arrayTypeN t => exact pass_case hopt rfl rfl
      | emptyArrayN t => exact pass_case hopt rfl rfl
      | voidTy => exact pass_case hopt rfl rfl
      | numberTy => exact pass_case hopt rfl rfl
      | stringTy => exact pass_case hopt rfl rfl
      | boolTy => exact pass_case hopt rfl rfl
      | structTypeN nm fs => exact pass_case hopt rfl rfl
      | fieldN nm t => exact pass_case hopt rfl rfl
      | variableN nm r t => exact pass_case hopt rfl rfl
      | breakStatementN => exact pass_case hopt rfl rfl
      | printStatement a => exact pass_case hopt rfl rfl
      | binaryE op le ri t => exact pass_case hopt rfl rfl
      | unaryE op o t => exact pass_case hopt rfl rfl
      | functionCallN ca as t => exact pass_case hopt rfl rfl
      | tryCatchStatement tb cb => exact pass_case hopt rfl rfl
    · intro ss hsz hnr l2 hopt x hx
      cases ss with
      | nil =>
        rw [optStmts_nil] at hopt
        injection hopt with h
        subst h
        cases hx
      | cons s rest =>
        rw [optStmts_cons] at hopt
        obtain ⟨r, hr, h1⟩ := exBind_eq_ok hopt
        obtain ⟨rs, hrs, h2⟩ := exBind_eq_ok h1
        injection h2 with h2
        subst h2
        rw [norawl_cons, Bool.and_eq_true] at hnr
        have hs1 : sizeOf s ≤ k := by simp at hsz; omega
        have hs2 : sizeOf rest ≤ k := by simp at hsz; omega
        have Ps := ihP s hs1 hnr.1 r hr
        have Qrest := ihQ rest hs2 hnr.2 rs hrs
        cases hraw : r.isRaw with
        | true =>
          obtain ⟨l, hl⟩ := (isRaw_iff r).mp hraw
          subst hl
          rw [show spliceInto (.rawList l) rs = l ++ rs from rfl] at hx
          rcases List.mem_append.mp hx with hxl | hxr
          · exact Ps.2 l rfl x hxl
          · exact Qrest x hxr
        | false =>
          rw [spliceInto_of_not_raw hraw] at hx
          rcases List.mem_cons.mp hx with hxe | hxr
          · subst hxe
            exact ⟨Ps.1, hraw⟩
          · exact Qrest x hxr
    · intro ss hsz hnr l2 hopt x hx
      cases ss with
      | nil =>
        rw [optEach_nil] at hopt
        injection hopt with h
        subst h
        cases hx
      | cons s rest =>
        rw [optEach_cons] at hopt
        obtain ⟨r, hr, h1⟩ := exBind_eq_ok hopt
        obtain ⟨rs, hrs, h2⟩ := exBind_eq_ok h1
        injection h2 with h2
        subst h2
        rw [norawl_cons, Bool.and_eq_true] at hnr
        have hs1 : sizeOf s ≤ k := by simp at hsz; omega
        have hs2 : sizeOf rest ≤ k := by simp at hsz; omega
        have Ps := ihP s hs1 hnr.1 r hr
        have Rrest := ihR rest hs2 hnr.2 rs hrs
        rcases List.mem_cons.mp hx with hxe | hxr
        · subst hxe
          exact Ps.1
        · exact Rrest x hxr

/-- C9: the optimizer is idempotent. For every decorated AST node — a value
of the data model, i.e. one containing no bare JS array in a node position —
feeding the optimizer's result (when it produces one) back into the
optimizer returns the same result; composed through exception propagation,
`optimize ∘ optimize = optimize`. (When `optimize n` throws, both sides
throw the same error, which `exBind` makes explicit.) -/
theorem claim9_optimizer_idempotent (n : Node) (h : NoRaw n = true) :
    exBind (optimize n) optimize = optimize n := by
  cases hopt : optimize n with
  | error e => rfl
  | ok m =>
    rw [exBind_ok]
    exact ((optimize_idem_aux (sizeOf n)).1 n le_rfl h m hopt).1

/-- Witness for C9 at a concrete decorated AST: an if statement with a
literal-true test whose branch increments a variable. -/
theorem claim9_optimizer_idempotent_witness :
    exBind (optimize (.ifStatement (.boolL true)
        [.incrementStatement (.variableN "x" false .numberTy)] (some [])))
      optimize
    = optimize (.ifStatement (.boolL true)
        [.incrementStatement (.variableN "x" false .numberTy)] (some [])) :=
  claim9_optimizer_idempotent
    (.ifStatement (.boolL true)
      [.incrementStatement (.variableN "x" false .numberTy)] (some [])) rfl

/-!
## Unfolding equations for the analyzer's statement handlers
-/

theorem ana_varDecl (ctx : Ctx) (priv : Bool) (ty : TypeE) (name : String) (init : Exp) :
    analyzeStmt ctx (.varDecl priv ty name init)
      = (exBind (analyzeType ctx ty) fun t =>
          exBind (mustNotAlreadyBeDeclaredCheck ctx name) fun _ =>
            exBind (analyzeExp (Ctx.add ctx name (.variableN name priv t)) init) fun ex =>
              exBind (mustBeAssignable ex t) fun _ =>
                .ok (.variableDeclaration (.variableN name priv t) (some ex),
                  Ctx.add ctx name (.variableN name priv t))) := rfl

theorem ana_funcDecl (ctx : Ctx) (retTy : TypeE) (name : String)
    (params : List (TypeE × String)) (body : List Stmt) :
    analyzeStmt ctx (.funcDecl retTy name params body)
      = (exBind (analyzeType ctx retTy) fun rt =>
          exBind (mustNotAlreadyBeDeclaredCheck ctx name) fun _ =>
            exBind
              (analyzeParams
                (Ctx.child (Ctx.add ctx name (.functionE name (.functionTypeN none rt)))
                  (Ctx.inLoopC (Ctx.add ctx name (.functionE name (.functionTypeN none rt))))
                  (some (.functionE name (.functionTypeN none rt))))
                params) fun pr =>
              exBind
                (analyzeStmts
                  (backfillCtx pr.2 name
                    (.functionE name (.functionTypeN
                      (some (pr.1.map (fun p => (Node.typeField p).getD .voidTy))) rt)))
                  body) fun br =>
                if Ctx.inLoopC br.2.tail then
                  .error (.semantic "Break can only appear in a loop")
                else
                  .ok (.functionDeclaration name
                    (.functionE name (.functionTypeN
                      (some (pr.1.map (fun p => (Node.typeField p).getD .voidTy))) rt))
                    pr.1 (some br.1), br.2.tail)) := rfl

theorem ana_structDecl (ctx : Ctx) (name : String) (fields : List (TypeE × String)) :
    analyzeStmt ctx (.structDecl name fields)
      = (exBind (analyzeFields ctx fields) fun freps =>
          exBind (mustNotAlreadyBeDeclaredCheck ctx name) fun _ =>
            if includesAsField freps (.structTypeN name freps) then
              .error (.semantic "Struct type must not be self-containing")
            else if distinctFieldNames freps then
              .ok (.typeDeclaration (.structTypeN name freps),
                Ctx.add ctx name (.structTypeN name freps))
            else .error (.semantic "Fields must be distinct")) := rfl

theorem ana_ifElse (ctx : Ctx) (test : Exp) (cons alt : List Stmt) :
    analyzeStmt ctx (.ifElse test cons alt)
      = (exBind (analyzeExp ctx test) fun t =>
          exBind (mustHaveBooleanType t) fun _ =>
            exBind (analyzeStmts (Ctx.child ctx (Ctx.inLoopC ctx) (Ctx.functionC ctx)) cons)
              fun cp =>
              exBind
                (analyzeStmts
                  (Ctx.child cp.2.tail (Ctx.inLoopC cp.2.tail) (Ctx.functionC cp.2.tail)) alt)
                fun ap =>
                .ok (.ifStatement t cp.1 (some ap.1), ap.2.tail)) := rfl

theorem ana_nestedIf (ctx : Ctx) (test : Exp) (cons : List Stmt) (alt : Stmt) :
    analyzeStmt ctx (.nestedIf test cons alt)
      = (exBind (analyzeExp ctx test) fun t =>
          exBind (mustHaveBooleanType t) fun _ =>
            exBind (analyzeStmts (Ctx.child ctx (Ctx.inLoopC ctx) (Ctx.functionC ctx)) cons)
              fun cp =>
              exBind (analyzeStmt cp.2 alt) fun _ =>
                .error (.crash "TypeError: core.nestedIfStatement is not a function")) := rfl

theorem ana_shortIf (ctx : Ctx) (test : Exp) (cons : List Stmt) :
    analyzeStmt ctx (.shortIf test cons)
      = (exBind (analyzeExp ctx test) fun t =>
          exBind (mustHaveBooleanType t) fun _ =>
            exBind (analyzeStmts (Ctx.child ctx (Ctx.inLoopC ctx) (Ctx.functionC ctx)) cons)
              fun cp =>
              .ok (.ifStatement t cp.1 none, cp.2.tail)) := rfl

theorem ana_whileS (ctx : Ctx) (test : Exp) (body : List Stmt) :
    analyzeStmt ctx (.whileS test body)
      = (exBind (analyzeExp ctx test) fun t =>
          exBind (mustHaveBooleanType t) fun _ =>
            exBind (analyzeStmts (Ctx.child ctx true (Ctx.functionC ctx)) body) fun bp =>
              .ok (.whileStatement t bp.1, bp.2.tail)) := rfl

theorem ana_breakS (ctx : Ctx) :
    analyzeStmt ctx .breakS
      = (if Ctx.inLoopC ctx then .ok (.breakStatementN, ctx)
         else .error (.semantic "Break can only appear in a loop")) := rfl

theorem ana_returnLong (ctx : Ctx) (e : Exp) :
    analyzeStmt ctx (.returnLong e)
      = (exBind (analyzeExp ctx e) fun ex =>
          checkLongReturn (Ctx.functionC ctx) ex ctx) := rfl

theorem ana_returnShort (ctx : Ctx) :
    analyzeStmt ctx .returnShort = checkShortReturn (Ctx.functionC ctx) ctx := rfl

theorem ana_printS (ctx : Ctx) (e : Exp) :
    analyzeStmt ctx (.printS e)
      = (exBind (analyzeExp ctx e) fun ex => .ok (.printStatement ex, ctx)) := rfl

@[simp] theorem anaStmts_nil (ctx : Ctx) : analyzeStmts ctx [] = .ok ([], ctx) := rfl

theorem anaStmts_cons (ctx : Ctx) (s : Stmt) (rest : List Stmt) :
    analyzeStmts ctx (s :: rest)
      = (exBind (analyzeStmt ctx s) fun p =>
          exBind (analyzeStmts p.2 rest) fun q =>
            .ok (p.1 :: q.1, q.2)) := rfl

/-!
## Context-shape lemmas

Every successful statement analysis leaves the context with the same parent
chain: only the locals of the entry frame may change (declarations add to
the current frame; child frames pushed by a handler are popped by it, or the
handler fails). These lemmas drive the function-in-loop and two-phase
claims.
-/

@[simp] theorem ctxInLoopC_cons (fr : Frame) (t : Ctx) :
    Ctx.inLoopC (fr :: t) = fr.inLoop := rfl

@[simp] theorem ctxFunctionC_cons (fr : Frame) (t : Ctx) :
    Ctx.functionC (fr :: t) = fr.function := rfl

theorem ctxAdd_cons (fr : Frame) (t : Ctx) (n : String) (v : Node) :
    Ctx.add (fr :: t) n v
      = Frame.mk (setLocal fr.locals n v) fr.inLoop fr.function :: t := rfl

theorem ctxChild_eq (c : Ctx) (il : Bool) (fo : Option Node) :
    Ctx.child c il fo = Frame.mk [] il fo :: c := rfl

theorem backfillCtx_cons_cons (c g : Frame) (t : Ctx) (n : String) (v : Node) :
    backfillCtx (c :: g :: t) n v
      = Frame.mk c.locals c.inLoop (some v)
          :: Frame.mk (setLocal g.locals n v) g.inLoop g.function :: t := rfl

theorem exBind_error_of {E A B : Type} (x : Except E A) (f : A → Except E B)
    (h : ∀ a, x = .ok a → ∃ e, f a = .error e) : ∃ e, exBind x f = .error e := by
  cases x with
  | error e => exact ⟨e, rfl⟩
  | ok a => simpa using h a rfl

theorem checkLongReturn_ctx {fo : Option Node} {ex : Node} {ctx : Ctx}
    {out : Node × Ctx} (h : checkLongReturn fo ex ctx = .ok out) : out.2 = ctx := by
  unfold checkLongReturn at h
  split at h
  · exact Except.noConfusion h
  · exact Except.noConfusion h
  · obtain ⟨u, _, h2⟩ := exBind_eq_ok h
    injection h2 with h2
    subst h2
    rfl
  · exact Except.noConfusion h

theorem checkShortReturn_ctx {fo : Option Node} {ctx : Ctx} {out : Node × Ctx}
    (h : checkShortReturn fo ctx = .ok out) : out.2 = ctx := by
  unfold checkShortReturn at h
  split at h
  · exact Except.noConfusion h
  · injection h with h
    subst h
    rfl
  · exact Except.noConfusion h
  · exact Except.noConfusion h

theorem analyzeParams_shape :
    ∀ (ps : List (TypeE × String)) (f : Frame) (t : Ctx) (out : List Node × Ctx),
      analyzeParams (f :: t) ps = .ok out →
      ∃ ls, out.2 = Frame.mk ls f.inLoop f.function :: t := by
  intro ps
  induction ps with
  | nil =>
    intro f t out h
    simp only [analyzeParams] at h
    injection h with h
    subst h
    exact ⟨f.locals, rfl⟩
  | cons p rest ih =>
    intro f t out h
    simp only [analyzeParams] at h
    split at h
    · exact Except.noConfusion h
    · split at h
      · exact Except.noConfusion h
      · split at h
        · exact Except.noConfusion h
        · rename_i v ctx3 heq
          injection h with h
          subst h
          obtain ⟨ls, hshape⟩ := ih _ _ _ heq
          exact ⟨ls, hshape⟩

theorem if_error_ok {E A : Type} {b : Bool} {e : E} {x out : A}
    (h : (if b = true then Except.error e else Except.ok x) = .ok out) :
    b = false ∧ x = out := by
  cases b
  · simpa using h
  · simp at h

/-- Shape preservation: a successful statement (or statement-list) analysis
returns a context made of the entry frame with possibly extended locals — the
same `inLoop` flag, the same enclosing function — on the unchanged parent
chain. (A nested if never succeeds, and every other handler pops exactly the
frames it pushes.) -/
theorem analyzeStmt_shape_aux : ∀ k : Nat,
    (∀ s : Stmt, sizeOf s ≤ k → ∀ (f : Frame) (t : Ctx) (out : Node × Ctx),
      analyzeStmt (f :: t) s = .ok out →
      ∃ ls, out.2 = Frame.mk ls f.inLoop f.function :: t) ∧
    (∀ ss : List Stmt, sizeOf ss ≤ k → ∀ (f : Frame) (t : Ctx) (out : List Node × Ctx),
      analyzeStmts (f :: t) ss = .ok out →
      ∃ ls, out.2 = Frame.mk ls f.inLoop f.function :: t) := by
  intro k
  induction k with
  | zero =>
    constructor
    · intro s hs
      exfalso
      cases s <;> simp at hs
    · intro ss hs
      exfalso
      cases ss <;> simp at hs
  | succ k ih =>
    obtain ⟨ihS, ihL⟩ := ih
    constructor
    · intro s hsz f t out h
      cases s with
      | varDecl priv ty name init =>
        rw [ana_varDecl] at h
        obtain ⟨t1, _, h1⟩ := exBind_eq_ok h
        obtain ⟨u1, _, h2⟩ := exBind_eq_ok h1
        obtain ⟨ex, _, h3⟩ := exBind_eq_ok h2
        obtain ⟨u2, _, h4⟩ := exBind_eq_ok h3
        injection h4 with h4
        subst h4
        exact ⟨setLocal f.locals name (.variableN name priv t1), rfl⟩
      | funcDecl retTy name params body =>
        rw [ana_funcDecl] at h
        obtain ⟨rt, hrt, h1⟩ := exBind_eq_ok h
        obtain ⟨u1, hchk, h2⟩ := exBind_eq_ok h1
        obtain ⟨pr, hpr, h3⟩ := exBind_eq_ok h2
        obtain ⟨br, hbr, h4⟩ := exBind_eq_ok h3
        simp only [ctxAdd_cons, ctxChild_eq, ctxInLoopC_cons] at hpr
        obtain ⟨ls0, hpr2⟩ := analyzeParams_shape params _ _ pr hpr
        rw [hpr2, backfillCtx_cons_cons] at hbr
        have hsb : sizeOf body ≤ k := by simp at hsz; omega
        obtain ⟨ls1, hbr2⟩ := ihL body hsb _ _ br hbr
        obtain ⟨hb, hx⟩ := if_error_ok h4
        subst hx
        refine ⟨setLocal (setLocal f.locals name
          (.functionE name (.functionTypeN none rt))) name
          (.functionE name (.functionTypeN
            (some (pr.1.map (fun p => (Node.typeField p).getD .voidTy))) rt)), ?_⟩
        show br.2.tail = _
        rw [hbr2]
        rfl
      | structDecl name fields =>
        rw [ana_structDecl] at h
        obtain ⟨freps, _, h1⟩ := exBind_eq_ok h
        obtain ⟨u1, _, h2⟩ := exBind_eq_ok h1
        split at h2
        · exact Except.noConfusion h2
        · split at h2
          · injection h2 with h2
            subst h2
            exact ⟨setLocal f.locals name (.structTypeN name freps), rfl⟩
          · exact Except.noConfusion h2
      | ifElse test cons alt =>
        rw [ana_ifElse] at h
        obtain ⟨t1, _, h1⟩ := exBind_eq_ok h
        obtain ⟨u1, _, h2⟩ := exBind_eq_ok h1
        obtain ⟨cp, hcp, h3⟩ := exBind_eq_ok h2
        obtain ⟨ap, hap, h4⟩ := exBind_eq_ok h3
        injection h4 with h4
        subst h4
        simp only [ctxChild_eq, ctxInLoopC_cons, ctxFunctionC_cons] at hcp
        have hsc : sizeOf cons ≤ k := by simp at hsz; omega
        obtain ⟨ls1, hcp2⟩ := ihL cons hsc _ _ cp hcp
        rw [hcp2] at hap
        simp only [List.tail_cons, ctxChild_eq, ctxInLoopC_cons, ctxFunctionC_cons] at hap
        have hsa : sizeOf alt ≤ k := by simp at hsz; omega
        obtain ⟨ls2, hap2⟩ := ihL alt hsa _ _ ap hap
        refine ⟨f.locals, ?_⟩
        show ap.2.tail = _
        rw [hap2]
        rfl
      | nestedIf test cons alt =>
        rw [ana_nestedIf] at h
        obtain ⟨t1, _, h1⟩ := exBind_eq_ok h
        obtain ⟨u1, _, h2⟩ := exBind_eq_ok h1
        obtain ⟨cp, _, h3⟩ := exBind_eq_ok h2
        obtain ⟨a1, _, herr⟩ := exBind_eq_ok h3
        exact Except.noConfusion herr
      | shortIf test cons =>
        rw [ana_shortIf] at h
        obtain ⟨t1, _, h1⟩ := exBind_eq_ok h
        obtain ⟨u1, _, h2⟩ := exBind_eq_ok h1
        obtain ⟨cp, hcp, h3⟩ := exBind_eq_ok h2
        injection h3 with h3
        subst h3
        simp only [ctxChild_eq, ctxInLoopC_cons, ctxFunctionC_cons] at hcp
        have hsc : sizeOf cons ≤ k := by simp at hsz; omega
        obtain ⟨ls1, hcp2⟩ := ihL cons hsc _ _ cp hcp
        refine ⟨f.locals, ?_⟩
        show cp.2.tail = _
        rw [hcp2]
        rfl
      | whileS test body =>
        rw [ana_whileS] at h
        obtain ⟨t1, _, h1⟩ := exBind_eq_ok h
        obtain ⟨u1, _, h2⟩ := exBind_eq_ok h1
        obtain ⟨bp, hbp, h3⟩ := exBind_eq_ok h2
        injection h3 with h3
        subst h3
        rw [ctxChild_eq, ctxFunctionC_cons] at hbp
        have hsb : sizeOf body ≤ k := by simp at hsz; omega
        obtain ⟨ls1, hbp2⟩ := ihL body hsb _ _ bp hbp
        refine ⟨f.locals, ?_⟩
        show bp.2.tail = _
        rw [hbp2]
        rfl
      | breakS =>
        rw [ana_breakS] at h
        split at h
        · injection h with h
          subst h
          exact ⟨f.locals, rfl⟩
        · exact Except.noConfusion h
      | returnLong e =>
        rw [ana_returnLong] at h
        obtain ⟨ex, _, h1⟩ := exBind_eq_ok h
        exact ⟨f.locals, checkLongReturn_ctx h1⟩
      | returnShort =>
        rw [ana_returnShort] at h
        exact ⟨f.locals, checkShortReturn_ctx h⟩
      | printS e =>
        rw [ana_printS] at h
        obtain ⟨ex, _, h1⟩ := exBind_eq_ok h
        injection h1 with h1
        subst h1
        exact ⟨f.locals, rfl⟩
    · intro ss hsz f t out h
      cases ss with
      | nil =>
        rw [anaStmts_nil] at h
        injection h with h
        subst h
        exact ⟨f.locals, rfl⟩
      | cons s rest =>
        rw [anaStmts_cons] at h
        obtain ⟨p, hp, h1⟩ := exBind_eq_ok h
        obtain ⟨q, hq, h2⟩ := exBind_eq_ok h1
        injection h2 with h2
        subst h2
        have hss : sizeOf s ≤ k := by simp at hsz; omega
        have hsr : sizeOf rest ≤ k := by simp at hsz; omega
        obtain ⟨ls1, hp2⟩ := ihS s hss f t p hp
        rw [hp2] at hq
        obtain ⟨ls2, hq2⟩ := ihL rest hsr _ _ q hq
        exact ⟨ls2, hq2⟩

/-- C10: analyzing a function declaration while the context's `inLoop` flag
is set always fails (first conjunct: no result is ever produced; every
successful sub-analysis path ends in the `mustNotContainBreakInFunction`
error, because `newChildContext({ function })` inherits the enclosing
`inLoop` flag and the check runs against the restored enclosing context).
Second conjunct: the representative program — a function with a break-free
body declared inside a while loop — is rejected with exactly "Break can only
appear in a loop". -/
theorem claim10_function_decl_in_loop_always_errors :
    (∀ (ctx : Ctx) (retTy : TypeE) (name : String) (params : List (TypeE × String))
        (body : List Stmt),
      Ctx.inLoopC ctx = true →
      ∃ e, analyzeStmt ctx (.funcDecl retTy name params body) = .error e) ∧
    analyze [.whileS .hooked [.funcDecl .numberT "f" [] [.printS (.litNum 1)]]]
      = .error (.semantic "Break can only appear in a loop") := by
  constructor
  · intro ctx retTy name params body hil
    cases ctx with
    | nil => exact absurd hil (by simp [Ctx.inLoopC])
    | cons f t =>
      rw [ctxInLoopC_cons] at hil
      rw [ana_funcDecl]
      apply exBind_error_of
      intro rt hrt
      apply exBind_error_of
      intro u hchk
      apply exBind_error_of
      intro pr hpr
      apply exBind_error_of
      intro br hbr
      simp only [ctxAdd_cons, ctxChild_eq, ctxInLoopC_cons] at hpr
      obtain ⟨ls0, hpr2⟩ := analyzeParams_shape params _ _ pr hpr
      rw [hpr2, backfillCtx_cons_cons] at hbr
      obtain ⟨ls1, hbr2⟩ :=
        (analyzeStmt_shape_aux (sizeOf body)).2 body le_rfl _ _ br hbr
      rw [hbr2]
      simp only [List.tail_cons, ctxInLoopC_cons]
      refine ⟨AErr.semantic "Break can only appear in a loop", ?_⟩
      rw [if_pos]
      show f.inLoop = true
      exact hil
  · rfl

/-- Witness for C10 at a concrete loop context and function declaration. -/
theorem claim10_function_decl_in_loop_witness :
    (Ctx.inLoopC [Frame.mk [] true none] = true) ∧
    ∃ e, analyzeStmt [Frame.mk [] true none]
        (.funcDecl .numberT "f" [] [.printS (.litNum 1)]) = .error e :=
  ⟨rfl, (claim10_function_decl_in_loop_always_errors).1
    [Frame.mk [] true none] .numberT "f" [] [.printS (.litNum 1)] rfl⟩

theorem lookupIn_setLocal (ls : List (String × Node)) (n : String) (v : Node) :
    lookupIn (setLocal ls n v) n = some v := by
  induction ls with
  | nil => simp [setLocal, lookupIn]
  | cons p rest ih =>
    by_cases h : p.1 = n
    · simp [setLocal, h, lookupIn]
    · simp [setLocal, h, lookupIn, ih]

@[simp] theorem analyzeParams_nil (ctx : Ctx) : analyzeParams ctx [] = .ok ([], ctx) := rfl

theorem ctxLookup_cons (fr : Frame) (t : Ctx) (n : String) :
    Ctx.lookup (fr :: t) n
      = (match lookupIn fr.locals n with
         | some e => some e
         | none => Ctx.lookup t n) := rfl

/-- C5 amended: the two-phase registration holds for FUNCTION declarations —
the entity is added to the enclosing scope before the body is analyzed, so a
reference to the function's own name inside the body resolves to the (back-
filled) function entity (first conjunct) — but NOT for struct declarations:
`StructDecl` analyzes the field list before the struct's name is bound, so a
field type naming the struct itself fails with a not-declared error (second
conjunct); class declarations have no analyzed body, so nothing is at stake
for them. -/
theorem claim5_amended_two_phase_functions_only :
    (∀ (f : Frame) (t : Ctx) (name : String),
      Ctx.lookup (f :: t) name = none → f.inLoop = false →
      ∃ ctxOut,
        analyzeStmt (f :: t) (.funcDecl .numberT name [] [.printS (.idE name)])
          = .ok (.functionDeclaration name
              (.functionE name (.functionTypeN (some []) .numberTy)) []
              (some [.printStatement
                (.functionE name (.functionTypeN (some []) .numberTy))]),
            ctxOut)) ∧
    (∀ (ctx : Ctx) (name fname : String),
      Ctx.lookup ctx name = none →
      analyzeStmt ctx (.structDecl name [(.idT name, fname)])
        = .error (.semantic s!"Identifier {name} not declared")) := by
  constructor
  · intro f t name hlk hil
    refine ⟨Frame.mk (setLocal (setLocal f.locals name
        (.functionE name (.functionTypeN none .numberTy))) name
        (.functionE name (.functionTypeN (some []) .numberTy)))
      f.inLoop f.function :: t, ?_⟩
    rw [ana_funcDecl]
    rw [show analyzeType (f :: t) TypeE.numberT = Except.ok Node.numberTy from rfl,
      exBind_ok]
    rw [show mustNotAlreadyBeDeclaredCheck (f :: t) name = Except.ok () by
      simp [mustNotAlreadyBeDeclaredCheck, hlk]]
    rw [exBind_ok, ctxAdd_cons, ctxChild_eq, analyzeParams_nil, exBind_ok]
    simp only [ctxInLoopC_cons, List.map_nil, backfillCtx_cons_cons]
    rw [anaStmts_cons, ana_printS]
    rw [show analyzeExp
        (Frame.mk [] (Frame.mk (setLocal f.locals name
            (.functionE name (.functionTypeN none .numberTy))) f.inLoop f.function).inLoop
            (some (.functionE name (.functionTypeN (some []) .numberTy)))
          :: Frame.mk (setLocal (setLocal f.locals name
              (.functionE name (.functionTypeN none .numberTy))) name
              (.functionE name (.functionTypeN (some []) .numberTy)))
            (Frame.mk (setLocal f.locals name
              (.functionE name (.functionTypeN none .numberTy))) f.inLoop f.function).inLoop
            (Frame.mk (setLocal f.locals name
              (.functionE name (.functionTypeN none .numberTy))) f.inLoop f.function).function
          :: t)
        (.idE name)
      = Except.ok (.functionE name (.functionTypeN (some []) .numberTy)) by
        simp [analyzeExp, ctxLookup_cons, lookupIn, lookupIn_setLocal]]
    rw [exBind_ok, exBind_ok, anaStmts_nil, exBind_ok, exBind_ok]
    simp only [List.tail_cons, ctxInLoopC_cons]
    rw [if_neg]
    show ¬((Frame.mk (setLocal f.locals name
      (.functionE name (.functionTypeN none .numberTy))) f.inLoop f.function).inLoop = true)
    simp [hil]
  · intro ctx name fname hlk
    rw [ana_structDecl]
    rw [show analyzeFields ctx [(.idT name, fname)]
        = .error (.semantic s!"Identifier {name} not declared") by
      simp [analyzeFields, analyzeType, hlk]]
    rfl

/-- Witness for C5's amended claim at concrete inputs: in the root context,
a function `f` whose body prints `f` analyzes successfully with the body
reference resolved to the function entity, while `boat A { A x }` fails with
the not-declared error. -/
theorem claim5_amended_two_phase_witness :
    (∃ ctxOut,
      analyzeStmt [Frame.mk [] false none]
          (.funcDecl .numberT "f" [] [.printS (.idE "f")])
        = .ok (.functionDeclaration "f"
            (.functionE "f" (.functionTypeN (some []) .numberTy)) []
            (some [.printStatement
              (.functionE "f" (.functionTypeN (some []) .numberTy))]),
          ctxOut)) ∧
    analyzeStmt [Frame.mk [] false none] (.structDecl "A" [(.idT "A", "x")])
      = .error (.semantic "Identifier A not declared") :=
  ⟨claim5_amended_two_phase_functions_only.1 (Frame.mk [] false none) [] "f" rfl rfl,
   claim5_amended_two_phase_functions_only.2 [Frame.mk [] false none] "A" "x" rfl⟩
